import Mathlib

/-
Verification of the crop matching and k-value calibration engine
(`app/utils/crop-matching.js` and the k-calibration module).

Shallow embedding conventions:

* JavaScript numbers are modelled as rationals (ℚ).  A field value in a
  daily-weather record is a `JVal`: a number, `null`, or `NaN`
  (`isNaN(null)` is false in JS, so `null` and `NaN` are kept distinct;
  both fail the validity test `v !== null && !isNaN(v)`).
  A field that is absent from a record is modelled by an association-list
  lookup returning `none` (the JS `in` operator distinguishes an absent
  key from a present `null`, and the code uses both tests).
* `Math.exp` and `Math.pow (·, 0.5)` are floating-point transcendental
  functions; they are modelled as explicit function parameters
  `exp sq : ℚ → ℚ`.  Theorems assume only properties real exp/sqrt have
  (`0 < exp x`, `exp 0 = 1`, `sq 0 = 0`), and concrete instantiations in
  witnesses satisfy those same properties.
* Quantities that can be `NaN` mid-computation (the k-sum and the derived
  weights) are modelled as `Option ℚ` with `none` for `NaN`; `NaN` is
  falsy in JS, which the code exploits (`kSum || 1`, `weight || default`).
* Dates are modelled as integers (the code parses them into `Date`
  objects and only ever compares and prints them).
-/

namespace CropMatch

/-- JavaScript field value: a finite number, `null`, or `NaN`. -/
inductive JVal where
  | vnum (q : ℚ)
  | vnull
  | vnan
deriving DecidableEq

/-- Association list of named fields, the model of a plain JS object. -/
abbrev Fields := List (String × JVal)

/-- Property access on a JS object: first binding wins, `none` when the
key is absent (JS `undefined`). -/
def alookup {β : Type} (k : String) : List (String × β) → Option β
  | [] => none
  | p :: t => if p.1 = k then some p.2 else alookup k t

/-- Valid value test used throughout the source:
`v !== null && !isNaN(v)` (also excludes JS `undefined`). -/
def JVal.isValid : JVal → Bool
  | .vnum _ => true
  | _ => false

/-- Numeric view of a `JVal`. -/
def JVal.toNum : JVal → Option ℚ
  | .vnum q => some q
  | _ => none

/-- Daily weather record: a date (epoch-style integer) plus named fields. -/
structure Day where
  date : ℤ
  fields : Fields
deriving DecidableEq

instance : Inhabited Day := ⟨⟨0, []⟩⟩

/-- NaN-propagating addition on JS numbers (`none` = `NaN`), used for the
`reduce((sum, val) => sum + val, 0)` over possibly-NaN k values. -/
def jadd : Option ℚ → Option ℚ → Option ℚ
  | some a, some b => some (a + b)
  | _, _ => none

/- ------------------------------------------------------------------ -/
/- K-value calibration module (`computeCropKValues` and its helpers). -/
/- ------------------------------------------------------------------ -/

/-- Source `calculateRange(values)`: filter out null/undefined/NaN values,
return `max - min`, with `1.0` substituted when no valid value remains or
when `max - min` is `0` (the `max - min || 1.0` guard). -/
def calculateRange (values : List JVal) : ℚ :=
  let validValues := values.filterMap JVal.toNum
  if validValues.length = 0 then 1
  else
    let mn := validValues.foldl min (validValues.headD 0)
    let mx := validValues.foldl max (validValues.headD 0)
    if mx - mn = 0 then 1 else mx - mn

/-- Values of a variable across the daily records; an absent key yields JS
`undefined`, which behaves like `NaN` under the validity filter. -/
def varValues (dw : List Day) (v : String) : List JVal :=
  dw.map (fun d => (alookup v d.fields).getD .vnan)

/-- Source `crop.daily_weather.some((day) => variable in day)`. -/
def varPresent (dw : List Day) (v : String) : Bool :=
  dw.any (fun d => (alookup v d.fields).isSome)

/-- Per-crop ranges dict: one entry per `baseImportance` variable that is
present in at least one daily record. -/
def cropRanges (baseImportance : List (String × ℚ)) (dw : List Day) :
    List (String × ℚ) :=
  baseImportance.filterMap (fun p =>
    if varPresent dw p.1 then some (p.1, calculateRange (varValues dw p.1))
    else none)

/-- Source `Math.max(...Object.values(ranges), 1.0)`. -/
def maxRangeOf (rs : List (String × ℚ)) : ℚ :=
  (rs.map Prod.snd).foldl max 1

/-- Normalization step `ranges[variable] = ranges[variable] / maxRange`. -/
def normalizeRanges (rs : List (String × ℚ)) : List (String × ℚ) :=
  rs.map (fun p => (p.1, p.2 / maxRangeOf rs))

/-- Source `variationFactor = Math.max(0.1, 1.0 - 0.5 * ranges[variable])`
computed from the normalized range of a present variable. -/
def variationFactorOf (baseImportance : List (String × ℚ)) (dw : List Day)
    (v : String) : Option ℚ :=
  if varPresent dw v then
    (alookup v (normalizeRanges (cropRanges baseImportance dw))).map
      (fun r => max (1/10) (1 - (1/2) * r))
  else none

/-- One entry of the k-values dict: `importance * variationFactor` when
the variable is present in the data, otherwise
`baseImportance[variable] || null` (a zero importance is falsy and
becomes `null`). -/
def kEntryOf (v : String) (imp : ℚ) : Option ℚ → String × JVal
  | some vf => (v, JVal.vnum (imp * vf))
  | none => (v, if imp = (0 : ℚ) then JVal.vnull else JVal.vnum imp)

/-- The k-values dict of one crop, one entry per `baseImportance`
variable. -/
def kDictOf (baseImportance : List (String × ℚ)) (dw : List Day) : Fields :=
  baseImportance.map (fun p =>
    kEntryOf p.1 p.2 (variationFactorOf baseImportance dw p.1))

/-- Crop record as seen by the calibration module: the daily weather may
be absent (`null`), and a `k_values` map may or may not already exist.
Other crop fields (name, coordinates, ...) are never touched by the
module and are not modelled. -/
structure CalibCrop where
  daily_weather : Option (List Day)
  k_values : Option Fields
deriving DecidableEq

/-- Per-crop step of `computeCropKValues`: `none` when the crop is skipped
(`!crop.daily_weather || crop.daily_weather.length === 0`), otherwise the
computed k dict. -/
def calibrateWeather (baseImportance : List (String × ℚ)) :
    Option (List Day) → Option Fields
  | none => none
  | some dw => if dw.length = 0 then none else some (kDictOf baseImportance dw)

/-- Skip test plus k computation for one crop. -/
def calibrateCrop (baseImportance : List (String × ℚ)) (c : CalibCrop) :
    Option Fields :=
  calibrateWeather baseImportance c.daily_weather

/-- Output of `computeCropKValues`: the crops map plus the error entries
pushed to the shared log (the per-variable calibration log entries are
plain projections of `kDictOf`/`variationFactorOf` and are not modelled
separately). -/
structure CalibResult where
  crops : List (String × CalibCrop)
  error_crops : List String
deriving DecidableEq

/-- Per-crop update of the crops map: attach the computed k dict, or
return the entry unchanged when the crop was skipped. -/
def updateCrop (p : String × CalibCrop) : Option Fields → String × CalibCrop
  | none => p
  | some kd => (p.1, { p.2 with k_values := some kd })

/-- Source `computeCropKValues(crops, baseImportance, logs)`.

Aliasing note: the source builds `updatedCrops = { ...crops }`, a shallow
copy, so `updatedCrops[cropName]` and `crops[cropName]` are the same
object; the assignment `updatedCrops[cropName].k_values = kDict` therefore
writes through to the caller's crop record.  In this embedding the crop
record returned for each name is consequently also the post-call state of
the caller's input record. -/
def computeCropKValues (crops : List (String × CalibCrop))
    (baseImportance : List (String × ℚ)) : CalibResult :=
  { crops := crops.map (fun p =>
      updateCrop p (calibrateCrop baseImportance p.2)),
    error_crops := crops.filterMap (fun p =>
      if (calibrateCrop baseImportance p.2).isNone then some p.1 else none) }

/- ------------------------------------------------------------------ -/
/- Matching engine (`runCropMatching` in `crop-matching.js`).          -/
/- ------------------------------------------------------------------ -/

/-- Configuration, after the merge of client overrides with defaults. -/
structure Config where
  STEP_SIZE : ℕ
  MAX_NAN_RATIO : ℚ
  DEFAULT_K : ℚ
  REQUIRED_FIELDS : List String
deriving DecidableEq

/-- The `DEFAULT_CONFIG` object at the top of `crop-matching.js`. -/
def defaultConfig : Config :=
  { STEP_SIZE := 30,
    MAX_NAN_RATIO := 15/100,
    DEFAULT_K := 2,
    REQUIRED_FIELDS :=
      ["soil_moisture_0_to_10cm_mean", "temperature_2m_max",
       "temperature_2m_min", "wind_speed_10m_mean",
       "relative_humidity_2m_mean", "precipitation_sum"] }

/-- Crop record as seen by the matching engine.  `k_values` is `none`
when the field is absent or `null` (the source reads
`crop.k_values || {}`). -/
structure Crop where
  daily_weather : List Day
  k_values : Option Fields
deriving DecidableEq

/-- The `DEFAULT_VARIABLE_WEIGHTS` object: `1 / REQUIRED_FIELDS.length`
per required field (`some` because derived weights can be `NaN`). -/
def defaultVariableWeights (cfg : Config) : List (String × Option ℚ) :=
  cfg.REQUIRED_FIELDS.map
    (fun f => (f, some ((1 : ℚ) / cfg.REQUIRED_FIELDS.length)))

/-- Stable ascending-by-date insertion, modelling the stable JS
`sort((a, b) => a.date - b.date)`.
`sortByDate` folds from the right of the input, so each element is
inserted before the previously inserted ones; placing it before the
first equal-or-later date keeps equal dates in their original relative
order. -/
def insertByDate (x : Day) : List Day → List Day
  | [] => [x]
  | y :: ys => if x.date ≤ y.date then x :: y :: ys else y :: insertByDate x ys

/-- Sort the daily records ascending by date (stable). -/
def sortByDate (l : List Day) : List Day := l.foldr insertByDate []

/-- Source `Math.max(-709, Math.min(709, x))`, the overflow clamp in
`safeExp`. -/
def clamp709 (x : ℚ) : ℚ := max (-709) (min 709 x)

/-- Source `safeExp(x)`: exponential of the clamped argument.  `exp` is
the model of floating-point `Math.exp`. -/
def safeExp (exp : ℚ → ℚ) (x : ℚ) : ℚ := exp (clamp709 x)

/-- Source `logisticScore(relDelta, k)`: per-day scores
`1 / (1 + safeExp(-k * relDelta[i] ** 0.5))`.  `sq` is the model of
floating-point `Math.pow(., 0.5)`. -/
def logisticScore (exp sq : ℚ → ℚ) (relDelta : List ℚ) (k : ℚ) : List ℚ :=
  let powValues := relDelta.map sq
  let negK := powValues.map (fun v => -k * v)
  let expValues := negK.map (safeExp exp)
  expValues.map (fun e => 1 / (1 + e))

/-- Source `windowData.every((day) => varName in day)`. -/
def hasVarEveryDay (v : String) (days : List Day) : Bool :=
  days.all (fun d => (alookup v d.fields).isSome)

/-- Source `windowData.map((day) => day[varName])`; the `.vnan` default
mirrors JS `undefined` (which is invalid), but the caller only uses this
after `hasVarEveryDay` holds. -/
def extractVals (v : String) (days : List Day) : List JVal :=
  days.map (fun d => (alookup v d.fields).getD .vnan)

/-- Numeric pair when neither side is null/NaN. -/
def pairOf : JVal → JVal → Option (ℚ × ℚ)
  | .vnum f, .vnum o => some (f, o)
  | _, _ => none

/-- Day-aligned valid pairs: positions where neither side is null/NaN. -/
def validPairs (fv ov : List JVal) : List (ℚ × ℚ) :=
  (fv.zip ov).filterMap (fun p => pairOf p.1 p.2)

/-- Truthiness fallback on a looked-up JS value: only a nonzero number is
truthy; `undefined`, `null`, `NaN` and `0` give the default. -/
def truthyNum (dflt : ℚ) : Option JVal → ℚ
  | some (.vnum q) => if q = 0 then dflt else q
  | _ => dflt

/-- Source `kValues[varName] || CONFIG.DEFAULT_K`: an absent, `null`,
`NaN` or zero k value is falsy and falls back to the default. -/
def kFallback (kValues : Fields) (v : String) (dflt : ℚ) : ℚ :=
  truthyNum dflt (alookup v kValues)

/-- Source `variableWeights[varName] || 1 / REQUIRED_FIELDS.length`: an
absent, `NaN` or zero weight is falsy and falls back to the uniform
default. -/
def truthyWeight (dflt : ℚ) : Option (Option ℚ) → ℚ
  | some (some q) => if q = 0 then dflt else q
  | _ => dflt

/-- Lookup plus truthiness fallback for a derived weight (an entry can be
absent, `NaN`, or `0`). -/
def weightFallback (wts : List (String × Option ℚ)) (v : String)
    (dflt : ℚ) : ℚ :=
  truthyWeight dflt (alookup v wts)

/-- Per-variable detail record stored in the window log. -/
structure VarDetail where
  k_value : ℚ
  weight : ℚ
  valid_points : ℕ
  nan_forecast : ℕ
  nan_optimal : ℕ
  avg_rel_delta : ℚ
  score : ℚ
  weighted_score : ℚ
deriving DecidableEq

/-- Outcome of processing one required variable inside `computeScore`. -/
inductive VarOutcome where
  | notFound
  | noValidPairs
  | scored (d : VarDetail)
deriving DecidableEq

/-- Weighted score pushed to the `scores` array, when any. -/
def VarOutcome.weightedOf : VarOutcome → Option ℚ
  | .scored d => some d.weighted_score
  | _ => none

/-- Weight added to `totalWeight`, when any. -/
def VarOutcome.weightOf : VarOutcome → Option ℚ
  | .scored d => some d.weight
  | _ => none

/-- One iteration of the `for (const varName of CONFIG.REQUIRED_FIELDS)`
loop in `computeScore`. -/
def scoreVariable (exp sq : ℚ → ℚ) (cfg : Config)
    (windowData cropData : List Day) (kValues : Fields)
    (variableWeights : List (String × Option ℚ)) (varName : String) :
    VarOutcome :=
  if hasVarEveryDay varName windowData && hasVarEveryDay varName cropData then
    let forecastVals := extractVals varName windowData
    let optimalVals := extractVals varName cropData
    let nanForecast := (forecastVals.filter (fun v => !v.isValid)).length
    let nanOptimal := (optimalVals.filter (fun v => !v.isValid)).length
    let pairs := validPairs forecastVals optimalVals
    if pairs.length = 0 then .noValidPairs
    else
      let k := kFallback kValues varName cfg.DEFAULT_K
      let weight := weightFallback variableWeights varName
        ((1 : ℚ) / cfg.REQUIRED_FIELDS.length)
      let relDeltas := pairs.map
        (fun p => |p.1 - p.2| / (|p.2| + 1/100000))
      let dailyScores := logisticScore exp sq relDeltas k
      let variableScore := dailyScores.sum / (dailyScores.length : ℚ)
      .scored
        { k_value := k,
          weight := weight,
          valid_points := pairs.length,
          nan_forecast := nanForecast,
          nan_optimal := nanOptimal,
          avg_rel_delta := relDeltas.sum / (relDeltas.length : ℚ),
          score := variableScore,
          weighted_score := variableScore * weight }
  else .notFound

/-- Structured warnings (the source pushes message strings). -/
inductive Warning where
  | varNotFound (v : String)
  | noValidPoints (v : String)
  | noValidScores
deriving DecidableEq

/-- Detail entry stored in `windowLog.variables`, when any. -/
def detailEntryOf (v : String) : VarOutcome → Option (String × VarDetail)
  | .scored d => some (v, d)
  | _ => none

/-- Warning pushed for a skipped variable, when any. -/
def warningEntryOf (v : String) : VarOutcome → Option Warning
  | .notFound => some (Warning.varNotFound v)
  | .noValidPairs => some (Warning.noValidPoints v)
  | .scored _ => none

/-- Result of `computeScore`: the final score (or `null`), the
per-variable details stored in the window log, and the warnings pushed
to it. -/
structure ScoreResult where
  score : Option ℚ
  details : List (String × VarDetail)
  warnings : List Warning
deriving DecidableEq

/-- All per-variable outcomes of one `computeScore` call, in required-
field order. -/
def scoreOutcomes (exp sq : ℚ → ℚ) (cfg : Config)
    (windowData cropData : List Day) (kValues : Fields)
    (variableWeights : List (String × Option ℚ)) :
    List (String × VarOutcome) :=
  cfg.REQUIRED_FIELDS.map (fun v =>
    (v, scoreVariable exp sq cfg windowData cropData kValues
      variableWeights v))

/-- Source `computeScore`: the `scores` array collects the weighted
scores, `totalWeight` accumulates the weights of the variables that
produced a score, and the final score is
`scores.reduce(+) / totalWeight`, or `null` when `scores` is empty or
`totalWeight` is `0`. -/
def computeScore (exp sq : ℚ → ℚ) (cfg : Config)
    (windowData cropData : List Day) (kValues : Fields)
    (variableWeights : List (String × Option ℚ)) : ScoreResult :=
  let outs := scoreOutcomes exp sq cfg windowData cropData kValues
    variableWeights
  let scores := outs.filterMap (fun p => p.2.weightedOf)
  let totalWeight := (outs.filterMap (fun p => p.2.weightOf)).sum
  let details := outs.filterMap (fun p => detailEntryOf p.1 p.2)
  let warnings := outs.filterMap (fun p => warningEntryOf p.1 p.2)
  if scores.length = 0 ∨ totalWeight = 0 then
    ⟨none, details, warnings ++ [Warning.noValidScores]⟩
  else ⟨some (scores.sum / totalWeight), details, warnings⟩

/-- Entry of the `validKValues` object for one required field:
`field in kValues && kValues[field] !== null` (a `NaN` k value passes the
test and keeps flowing as `NaN`). -/
def validKEntry (f : String) : Option JVal → Option (String × Option ℚ)
  | some (.vnum q) => some (f, some q)
  | some .vnan => some (f, (none : Option ℚ))
  | _ => none

/-- The `validKValues` object: required fields whose k value is present
and not `null`. -/
def validKValues (cfg : Config) (kValues : Fields) :
    List (String × Option ℚ) :=
  cfg.REQUIRED_FIELDS.filterMap (fun f => validKEntry f (alookup f kValues))

/-- JS truthiness guard on the k sum: `0` and `NaN` give `1`. -/
def orOne : Option ℚ → ℚ
  | some s => if s = 0 then 1 else s
  | none => 1

/-- Source `... .reduce((sum, val) => sum + val, 0) || 1` (both `0` and a
`NaN` sum are falsy). -/
def kSumOf (vks : List (String × Option ℚ)) : ℚ :=
  orOne ((vks.map Prod.snd).foldl jadd (some 0))

/-- The `variableWeights` map used for a crop (`processCrops`,
weight-derivation step).  When the crop has any k values, the non-null k
values of required fields are normalized by `kSum`; a `NaN` k value
yields a `NaN` weight.  When the crop has no k values at all the uniform
defaults are used. -/
def derivedWeights (cfg : Config) (kValues : Fields) :
    List (String × Option ℚ) :=
  if kValues.length = 0 then defaultVariableWeights cfg
  else
    let vks := validKValues cfg kValues
    let ks := kSumOf vks
    vks.map (fun p => (p.1, p.2.map (fun q => q / ks)))

/-- Gate validity test `field in day && day[field] !== null && !isNaN(day[field])`. -/
def isValidEntry : Option JVal → Bool
  | some (.vnum _) => true
  | _ => false

/-- Valid data points of a window for the completeness gate: fields that
are present, non-null and non-NaN, summed over all days. -/
def countValidValues (cfg : Config) (days : List Day) : ℕ :=
  (days.map (fun d =>
    (cfg.REQUIRED_FIELDS.filter
      (fun f => isValidEntry (alookup f d.fields))).length)).sum

/-- Source `Math.round(score * 10000) / 10000` (JS rounds half toward
positive infinity). -/
def round4 (q : ℚ) : ℚ := ((⌊q * 10000 + 1/2⌋ : ℤ) : ℚ) / 10000

/-- A window that passed the gate and produced a score. -/
structure WindowRes where
  start : ℤ
  score : ℚ
  variable_details : List (String × VarDetail)
deriving DecidableEq

instance : Inhabited WindowRes := ⟨⟨0, 0, []⟩⟩

/-- Outcome of one iteration of the window loop. -/
inductive WindowOutcome where
  | insufficient
  | nullScore
  | scored (w : WindowRes)
deriving DecidableEq

/-- Window outcome from the score returned by `computeScore`: a non-null
score is rounded to 4 decimal places and recorded, a `null` score is
logged as no-valid-score. -/
def outcomeOfScore (windowStart : ℤ) (details : List (String × VarDetail)) :
    Option ℚ → WindowOutcome
  | some s => .scored ⟨windowStart, round4 s, details⟩
  | none => .nullScore

def WindowOutcome.isInsufficient : WindowOutcome → Bool
  | .insufficient => true
  | _ => false

def WindowOutcome.scoredWindow : WindowOutcome → Option WindowRes
  | .scored w => some w
  | _ => none

/-- Start indices of the window loop:
`for (let i = 0; i <= forecast.length - duration; i += STEP_SIZE)`.
Meaningful for `duration ≤ n` and `0 < step` (the source loop does not
terminate when `STEP_SIZE` is `0`, and `duration ≤ n` is ensured by the
duration disqualification before the loop). -/
def windowStarts (n dur step : ℕ) : List ℕ :=
  (List.range ((n - dur) / step + 1)).map (· * step)

/-- One iteration of the window loop: slice the window, apply the
completeness gate, then score.  The gate is
`dataRatio < 1 - MAX_NAN_RATIO`; when `totalValues` is `0` the JS ratio
is `NaN` and the comparison is false, so the gate passes. -/
def processWindow (exp sq : ℚ → ℚ) (cfg : Config)
    (forecastDf cropDf : List Day) (kValues : Fields)
    (variableWeights : List (String × Option ℚ)) (i : ℕ) : WindowOutcome :=
  let windowDf := (forecastDf.drop i).take cropDf.length
  let windowStart := (windowDf.headD ⟨0, []⟩).date
  let validValues := countValidValues cfg windowDf
  let totalValues := cropDf.length * cfg.REQUIRED_FIELDS.length
  if totalValues ≠ 0 ∧
      (validValues : ℚ) / (totalValues : ℚ) < 1 - cfg.MAX_NAN_RATIO then
    .insufficient
  else
    let sr := computeScore exp sq cfg windowDf cropDf kValues
      variableWeights
    outcomeOfScore windowStart sr.details sr.score

/-- Per-crop `windows_stats` counters. -/
structure WindowsStats where
  total_windows : ℕ
  insufficient_data : ℕ
  valid_windows : ℕ
deriving DecidableEq

/-- Counters accumulated over the window loop. -/
def statsOfOutcomes (outs : List WindowOutcome) : WindowsStats :=
  ⟨outs.length,
   outs.countP (fun o => o.isInsufficient),
   outs.countP (fun o => o.scoredWindow.isSome)⟩

/-- Stable descending-by-score insertion, modelling the stable JS
`sort((a, b) => b.score - a.score)`.  As with `insertByDate`, the fold
inserts from the right of the input, so placing each element before the
first equal-or-lower score keeps equal scores in their original
relative order. -/
def insertByScoreDesc (x : WindowRes) : List WindowRes → List WindowRes
  | [] => [x]
  | y :: ys =>
    if x.score ≥ y.score then x :: y :: ys else y :: insertByScoreDesc x ys

/-- Sort scored windows by score descending (stable). -/
def sortByScoreDesc (l : List WindowRes) : List WindowRes :=
  l.foldr insertByScoreDesc []

/-- Terminal outcome of processing one crop. -/
inductive CropOutcome where
  | disqualified
  | errored (st : WindowsStats)
  | noValidWindows (st : WindowsStats)
  | success (windows : List WindowRes) (st : WindowsStats)
deriving DecidableEq

/-- All window outcomes of one crop. -/
def cropWindowOutcomes (exp sq : ℚ → ℚ) (cfg : Config)
    (forecastDf cropDf : List Day) (kValues : Fields)
    (variableWeights : List (String × Option ℚ)) : List WindowOutcome :=
  (windowStarts forecastDf.length cropDf.length cfg.STEP_SIZE).map
    (processWindow exp sq cfg forecastDf cropDf kValues variableWeights)

/-- Per-crop body of `processCrops`.  A crop whose (sorted) duration
exceeds the forecast length is disqualified before any window is
enumerated.  A crop with zero duration throws a `TypeError` on
`windowDf[0].date` in the first loop iteration, after the counters for
that window were already incremented; the per-crop `try` block catches
it (`errored`), leaving `windows_stats` at `{1, 0, 0}`. -/
def processCrop (exp sq : ℚ → ℚ) (cfg : Config) (forecastDf : List Day)
    (crop : Crop) : CropOutcome :=
  let cropDf := sortByDate crop.daily_weather
  let duration := cropDf.length
  if duration > forecastDf.length then .disqualified
  else
    let kValues := crop.k_values.getD []
    let variableWeights := derivedWeights cfg kValues
    if duration = 0 then .errored ⟨1, 0, 0⟩
    else
      let outs := cropWindowOutcomes exp sq cfg forecastDf cropDf kValues
        variableWeights
      let ws := outs.filterMap WindowOutcome.scoredWindow
      let st := statsOfOutcomes outs
      if 0 < ws.length then .success (sortByScoreDesc ws) st
      else .noValidWindows st

/-- Summary counters of the run log. -/
structure Summary where
  crops_processed : ℕ
  crops_disqualified_duration : ℕ
  crops_no_valid_windows : ℕ
  crops_successful : ℕ
  total_windows_processed : ℕ
  windows_insufficient_data : ℕ
  windows_successful : ℕ
deriving DecidableEq

def initSummary : Summary := ⟨0, 0, 0, 0, 0, 0, 0⟩

/-- One entry of the `results` array (the variety/region/k_values_used
pass-through fields are glue and are not modelled). -/
structure CropResult where
  name : String
  duration_days : ℕ
  windows : List WindowRes
deriving DecidableEq

instance : Inhabited CropResult := ⟨⟨"", 0, []⟩⟩

/-- Output of a run: the results array, the summary counters, and the
per-crop `windows_stats` entries of the crop logs. -/
structure RunOutput where
  results : List CropResult
  summary : Summary
  crop_stats : List (String × WindowsStats)
deriving DecidableEq

/-- The `windows_stats` of a crop outcome (`⟨0,0,0⟩` for a disqualified
crop, whose stats object is never created). -/
def outcomeStats : CropOutcome → WindowsStats
  | .disqualified => ⟨0, 0, 0⟩
  | .errored st => st
  | .noValidWindows st => st
  | .success _ st => st

/-- Accumulator update for one crop outcome, with the counter
increments of the source. -/
def applyCropOutcome (name : String) (duration : ℕ) (acc : RunOutput) :
    CropOutcome → RunOutput
  | .disqualified =>
    { acc with summary :=
      { acc.summary with
          crops_processed := acc.summary.crops_processed + 1,
          crops_disqualified_duration :=
            acc.summary.crops_disqualified_duration + 1 } }
  | .errored st =>
    { acc with
      summary :=
        { acc.summary with
            crops_processed := acc.summary.crops_processed + 1,
            total_windows_processed :=
              acc.summary.total_windows_processed + st.total_windows,
            windows_insufficient_data :=
              acc.summary.windows_insufficient_data + st.insufficient_data,
            windows_successful :=
              acc.summary.windows_successful + st.valid_windows },
      crop_stats := acc.crop_stats ++ [(name, st)] }
  | .noValidWindows st =>
    { acc with
      summary :=
        { acc.summary with
            crops_processed := acc.summary.crops_processed + 1,
            crops_no_valid_windows :=
              acc.summary.crops_no_valid_windows + 1,
            total_windows_processed :=
              acc.summary.total_windows_processed + st.total_windows,
            windows_insufficient_data :=
              acc.summary.windows_insufficient_data + st.insufficient_data,
            windows_successful :=
              acc.summary.windows_successful + st.valid_windows },
      crop_stats := acc.crop_stats ++ [(name, st)] }
  | .success ws st =>
    { results := acc.results ++ [⟨name, duration, ws⟩],
      summary :=
        { acc.summary with
            crops_processed := acc.summary.crops_processed + 1,
            crops_successful := acc.summary.crops_successful + 1,
            total_windows_processed :=
              acc.summary.total_windows_processed + st.total_windows,
            windows_insufficient_data :=
              acc.summary.windows_insufficient_data + st.insufficient_data,
            windows_successful :=
              acc.summary.windows_successful + st.valid_windows },
      crop_stats := acc.crop_stats ++ [(name, st)] }

/-- One iteration of the `for (const cropName in crops)` loop. -/
def stepCrop (exp sq : ℚ → ℚ) (cfg : Config) (forecastDf : List Day)
    (acc : RunOutput) (p : String × Crop) : RunOutput :=
  applyCropOutcome p.1 (sortByDate p.2.daily_weather).length acc
    (processCrop exp sq cfg forecastDf p.2)

/-- Source `runCropMatching(crops, forecastData, clientConfig)`: sort the
forecast, process every crop, return results and counters. -/
def runCropMatching (exp sq : ℚ → ℚ) (cfg : Config)
    (crops : List (String × Crop)) (forecastData : List Day) : RunOutput :=
  let forecastDf := sortByDate forecastData
  crops.foldl (stepCrop exp sq cfg forecastDf) ⟨[], initSummary, []⟩

/-- The completeness-gate condition of a window. -/
def gateFails (cfg : Config) (cropLen : ℕ) (windowDf : List Day) : Prop :=
  cropLen * cfg.REQUIRED_FIELDS.length ≠ 0 ∧
    (countValidValues cfg windowDf : ℚ) /
        (cropLen * cfg.REQUIRED_FIELDS.length : ℕ) < 1 - cfg.MAX_NAN_RATIO

instance (cfg : Config) (cropLen : ℕ) (windowDf : List Day) :
    Decidable (gateFails cfg cropLen windowDf) := by
  unfold gateFails; infer_instance

/-- Relative deltas of the valid pairs of one variable in one window
(`|forecast - historical| / (|historical| + 1e-5)`). -/
def relDeltasOf (v : String) (windowData cropData : List Day) : List ℚ :=
  (validPairs (extractVals v windowData) (extractVals v cropData)).map
    (fun p => |p.1 - p.2| / (|p.2| + 1/100000))

/-- The variable score: daily logistic scores averaged over valid days. -/
def varScoreOf (exp sq : ℚ → ℚ) (cfg : Config) (v : String)
    (windowData cropData : List Day) (kValues : Fields) : ℚ :=
  let dailyScores := logisticScore exp sq (relDeltasOf v windowData cropData)
    (kFallback kValues v cfg.DEFAULT_K)
  dailyScores.sum / (dailyScores.length : ℚ)

/-- A k-values entry that is not a negative number (`null`, `NaN`, or a
nonnegative number); crops produced by calibration from nonnegative base
importances satisfy this. -/
def KEntryNonneg (v : JVal) : Prop := ∀ q : ℚ, v = .vnum q → 0 ≤ q

/-- The `computeScore` call made for window `i` of a crop in a run over
forecast `fc`: forecast and crop data sorted, missing `k_values`
defaulted to the empty object, weights derived as in `processCrops`. -/
def windowScore (exp sq : ℚ → ℚ) (cfg : Config) (fc : List Day)
    (crop : Crop) (i : ℕ) : ScoreResult :=
  computeScore exp sq cfg
    (((sortByDate fc).drop i).take (sortByDate crop.daily_weather).length)
    (sortByDate crop.daily_weather) (crop.k_values.getD [])
    (derivedWeights cfg (crop.k_values.getD []))

/- ------------------------------------------------------------------ -/
/- Outcome classifiers and a closed characterization of the run fold,  -/
/- used to state and prove the counting claims.                        -/
/- ------------------------------------------------------------------ -/

def CropOutcome.isDisq : CropOutcome → Bool
  | .disqualified => true
  | _ => false

def CropOutcome.isNoValid : CropOutcome → Bool
  | .noValidWindows _ => true
  | _ => false

def CropOutcome.isSucc : CropOutcome → Bool
  | .success _ _ => true
  | _ => false

/-- Entry pushed to the `results` array by one crop, when any. -/
def resultFromOutcome (name : String) (duration : ℕ) :
    CropOutcome → Option CropResult
  | .success ws _ => some ⟨name, duration, ws⟩
  | _ => none

/-- The per-crop `windows_stats` log entry, when the stats object was
created (every outcome except duration disqualification). -/
def statsFromOutcome (name : String) : CropOutcome → Option (String × WindowsStats)
  | .disqualified => none
  | .errored st => some (name, st)
  | .noValidWindows st => some (name, st)
  | .success _ st => some (name, st)

/-- Contribution of one crop outcome to the summary counters. -/
def outcomeDelta : CropOutcome → Summary
  | .disqualified => ⟨1, 1, 0, 0, 0, 0, 0⟩
  | .errored st => ⟨1, 0, 0, 0, st.total_windows, st.insufficient_data,
      st.valid_windows⟩
  | .noValidWindows st => ⟨1, 0, 1, 0, st.total_windows,
      st.insufficient_data, st.valid_windows⟩
  | .success _ st => ⟨1, 0, 0, 1, st.total_windows, st.insufficient_data,
      st.valid_windows⟩

/-- Componentwise addition of summary counters. -/
def addSummary (a b : Summary) : Summary :=
  ⟨a.crops_processed + b.crops_processed,
   a.crops_disqualified_duration + b.crops_disqualified_duration,
   a.crops_no_valid_windows + b.crops_no_valid_windows,
   a.crops_successful + b.crops_successful,
   a.total_windows_processed + b.total_windows_processed,
   a.windows_insufficient_data + b.windows_insufficient_data,
   a.windows_successful + b.windows_successful⟩

/-- The outcome computed for one crops-map entry. -/
def outcomeOf (exp sq : ℚ → ℚ) (cfg : Config) (forecastDf : List Day)
    (p : String × Crop) : CropOutcome :=
  processCrop exp sq cfg forecastDf p.2

/-- Closed form of the summary counters of a run. -/
def runTotals (exp sq : ℚ → ℚ) (cfg : Config) (forecastDf : List Day)
    (crops : List (String × Crop)) : Summary :=
  ⟨crops.length,
   crops.countP (fun p => (outcomeOf exp sq cfg forecastDf p).isDisq),
   crops.countP (fun p => (outcomeOf exp sq cfg forecastDf p).isNoValid),
   crops.countP (fun p => (outcomeOf exp sq cfg forecastDf p).isSucc),
   (crops.map (fun p =>
     (outcomeStats (outcomeOf exp sq cfg forecastDf p)).total_windows)).sum,
   (crops.map (fun p =>
     (outcomeStats (outcomeOf exp sq cfg forecastDf p)).insufficient_data)).sum,
   (crops.map (fun p =>
     (outcomeStats (outcomeOf exp sq cfg forecastDf p)).valid_windows)).sum⟩

/- ------------------------------------------------------------------ -/
/- Spec-side definitions, following the specification words where they -/
/- are compared with the source behaviour (refinement checks).         -/
/- ------------------------------------------------------------------ -/

/-- Numeric k value of a field of the k-values map (`0` when absent or
non-numeric); only used to state spec-side weight formulas. -/
def numKOf (kv : Fields) (f : String) : ℚ :=
  (alookup f kv).getD .vnull |>.toNum |>.getD 0

/-- Sum of the k values present (non-null, numeric) for required fields,
the denominator named by the spec for weight derivation. -/
def presentKSum (cfg : Config) (kv : Fields) : ℚ :=
  ((validKValues cfg kv).filterMap Prod.snd).sum

/-- Spec-words weight (C2): "each k value divided by the sum of the k
values present for required fields" — with no fallback when that sum is
zero (a zero denominator makes the quotient `0` under the Lean
convention; in JS it would be `Infinity`/`NaN`, in either case not the
value the source computes). -/
def specWeightOf (cfg : Config) (kv : Fields) (f : String) : ℚ :=
  numKOf kv f / presentKSum cfg kv

/-- Spec-words normalization (C6): divide by the crop's own maximum
range, "or 1.0 if that maximum is ≤ 0". -/
def specNormalizeRanges (rs : List (String × ℚ)) : List (String × ℚ) :=
  let m := (rs.map Prod.snd).foldl max 0
  rs.map (fun p => (p.1, p.2 / (if m ≤ 0 then 1 else m)))

/- ------------------------------------------------------------------ -/
/- Concrete inputs used by witnesses and counterexamples.              -/
/- ------------------------------------------------------------------ -/

/-- Exp model used in counterexamples: `1` at `0` (as real exp) and a
fixed positive value elsewhere. -/
def expCex : ℚ → ℚ := fun x => if x = 0 then 1 else 8

/-- Sqrt model used in counterexamples: the identity (nonnegative on
nonnegative arguments and `0` at `0`, as real sqrt). -/
def sqrtCex : ℚ → ℚ := fun x => x

/-- Exp model used in witnesses: constantly `1` (positive everywhere and
`1` at `0`, as real exp). -/
def expOne : ℚ → ℚ := fun _ => 1

/-- Sqrt model used in witnesses: constantly `0` (nonnegative and `0` at
`0`, as real sqrt). -/
def sqrtZero : ℚ → ℚ := fun _ => 0

/-- Two-field configuration with stride 1 and the default gate/k. -/
def cfgAB : Config := ⟨1, 3/20, 2, ["a", "b"]⟩

/-- One-field configuration with stride 1 and the default gate/k. -/
def cfgA : Config := ⟨1, 3/20, 2, ["a"]⟩

/-- C1 counterexample crop: one-day weather, k values `3` and `-2`. -/
def cropsCex1 : List (String × Crop) :=
  [("c", ⟨[⟨0, [("a", .vnum 1), ("b", .vnum 1)]⟩],
          some [("a", .vnum 3), ("b", .vnum (-2))]⟩)]

/-- C1 counterexample forecast: one day, exact match on `a`, off by one
on `b`. -/
def fcCex1 : List Day := [⟨0, [("a", .vnum 1), ("b", .vnum 2)]⟩]

/-- Small all-valid crop used by witnesses: one day, one field, an
explicit k value. -/
def cropW : Crop := ⟨[⟨0, [("a", .vnum 5)]⟩], some [("a", .vnum 2)]⟩

def cropsW : List (String × Crop) := [("c", cropW)]

def fcW : List Day := [⟨0, [("a", .vnum 5)]⟩]

/-- C2 counterexample k values: both required fields present and
non-null, but summing to zero. -/
def kvC2 : Fields := [("a", .vnum 4), ("b", .vnum (-4))]

/-- C2 witness k values: both required fields present, sum `10`. -/
def kvW2 : Fields := [("a", .vnum 4), ("b", .vnum 6)]

/-- C3 witness forecast: the single required field is `null`, so the only
window fails the completeness gate. -/
def fcNull : List Day := [⟨0, [("a", .vnull)]⟩]

/-- C4 witness crop: two-day weather against a one-day forecast. -/
def cropLong : Crop := ⟨[⟨0, [("a", .vnum 1)]⟩, ⟨1, [("a", .vnum 2)]⟩], none⟩

def cropsLong : List (String × Crop) := [("c", cropLong)]

/-- C7 counterexample configuration: one required field, loose gate
(`MAX_NAN_RATIO = 0.6`). -/
def cfgA6 : Config := ⟨1, 3/5, 2, ["a"]⟩

/-- C7 counterexample window: day 0 has a valid value, day 1 lacks the
field entirely. -/
def winCex7 : List Day := [⟨0, [("a", .vnum 10)]⟩, ⟨1, []⟩]

/-- C7 counterexample crop data: valid values on both days. -/
def cropCex7 : List Day := [⟨0, [("a", .vnum 10)]⟩, ⟨1, [("a", .vnum 10)]⟩]

/-- C8 scenario configuration: `STEP_SIZE = 1` and the single matched
variable as the required-field set (the spec scenario matches "a 4-day
forecast of the same variable"). -/
def cfgC8 : Config := ⟨1, 3/20, 2, ["temperature_2m_max"]⟩

/-- C8 scenario crop: `duration_days = 2`, temperatures `[10, 12]`,
`k_values = {temperature_2m_max: 2.0}`. -/
def cropC8 : Crop :=
  ⟨[⟨0, [("temperature_2m_max", .vnum 10)]⟩,
    ⟨1, [("temperature_2m_max", .vnum 12)]⟩],
   some [("temperature_2m_max", .vnum 2)]⟩

/-- C8 scenario crops map. -/
def cropsC8 : List (String × Crop) := [("maize", cropC8)]

/-- C8 scenario forecast: 4 days, `[10, 12, 10, 12]`. -/
def fcC8 : List Day :=
  [⟨0, [("temperature_2m_max", .vnum 10)]⟩,
   ⟨1, [("temperature_2m_max", .vnum 12)]⟩,
   ⟨2, [("temperature_2m_max", .vnum 10)]⟩,
   ⟨3, [("temperature_2m_max", .vnum 12)]⟩]

/-- The variable-detail entry of an exact-match window of the C8
scenario: `k = 2`, weight `1`, two valid points, no NaNs, mean relative
delta `0`, variable score `1/2`, weighted score `1/2`. -/
def detsC8 : List (String × VarDetail) :=
  [("temperature_2m_max", ⟨2, 1, 2, 0, 0, 0, 1/2, 1/2⟩)]

/-- C5/C6/C9 calibration inputs: a crop whose single variable is
constant (C5), one with a sub-1 range (C6), and a base importance. -/
def dwConst : List Day := [⟨0, [("a", .vnum 10)]⟩, ⟨1, [("a", .vnum 10)]⟩]

def dwHalf : List Day := [⟨0, [("a", .vnum 0)]⟩, ⟨1, [("a", .vnum (1/2))]⟩]

def biA5 : List (String × ℚ) := [("a", 5)]

def biA1 : List (String × ℚ) := [("a", 1)]

/-- C9 counterexample crops map: one crop with weather and no
pre-existing k values. -/
def cropsCalib : List (String × CalibCrop) :=
  [("c", ⟨some dwConst, none⟩)]

/- ------------------------------------------------------------------ -/
/- Constructor-shaped evaluation lemmas for the pattern-matching       -/
/- helpers (used by simp to evaluate the engine on concrete inputs).   -/
/- ------------------------------------------------------------------ -/

@[simp] theorem alookup_nil {β : Type} (k : String) :
    alookup k ([] : List (String × β)) = none := rfl

@[simp] theorem alookup_cons {β : Type} (k : String) (p : String × β)
    (t : List (String × β)) :
    alookup k (p :: t) = if p.1 = k then some p.2 else alookup k t := rfl

@[simp] theorem jadd_some_some (a b : ℚ) :
    jadd (some a) (some b) = some (a + b) := rfl

@[simp] theorem jadd_none (x : Option ℚ) : jadd none x = none := rfl

@[simp] theorem jadd_some_none (a : ℚ) : jadd (some a) none = none := rfl

@[simp] theorem isValid_vnum (q : ℚ) : (JVal.vnum q).isValid = true := rfl

@[simp] theorem isValid_vnull : JVal.vnull.isValid = false := rfl

@[simp] theorem isValid_vnan : JVal.vnan.isValid = false := rfl

@[simp] theorem toNum_vnum (q : ℚ) : (JVal.vnum q).toNum = some q := rfl

@[simp] theorem toNum_vnull : JVal.vnull.toNum = none := rfl

@[simp] theorem toNum_vnan : JVal.vnan.toNum = none := rfl

@[simp] theorem pairOf_num_num (f o : ℚ) :
    pairOf (.vnum f) (.vnum o) = some (f, o) := rfl

@[simp] theorem pairOf_vnull_left (x : JVal) : pairOf .vnull x = none := by
  cases x <;> rfl

@[simp] theorem pairOf_vnan_left (x : JVal) : pairOf .vnan x = none := by
  cases x <;> rfl

@[simp] theorem pairOf_vnull_right (x : JVal) : pairOf x .vnull = none := by
  cases x <;> rfl

@[simp] theorem pairOf_vnan_right (x : JVal) : pairOf x .vnan = none := by
  cases x <;> rfl

@[simp] theorem truthyNum_num (dflt q : ℚ) :
    truthyNum dflt (some (.vnum q)) = if q = 0 then dflt else q := rfl

@[simp] theorem truthyNum_none (dflt : ℚ) : truthyNum dflt none = dflt := rfl

@[simp] theorem truthyNum_vnull (dflt : ℚ) :
    truthyNum dflt (some .vnull) = dflt := rfl

@[simp] theorem truthyNum_vnan (dflt : ℚ) :
    truthyNum dflt (some .vnan) = dflt := rfl

@[simp] theorem truthyWeight_some (dflt q : ℚ) :
    truthyWeight dflt (some (some q)) = if q = 0 then dflt else q := rfl

@[simp] theorem truthyWeight_none (dflt : ℚ) :
    truthyWeight dflt none = dflt := rfl

@[simp] theorem truthyWeight_some_none (dflt : ℚ) :
    truthyWeight dflt (some none) = dflt := rfl

@[simp] theorem validKEntry_num (f : String) (q : ℚ) :
    validKEntry f (some (.vnum q)) = some (f, some q) := rfl

@[simp] theorem validKEntry_vnan (f : String) :
    validKEntry f (some .vnan) = some (f, (none : Option ℚ)) := rfl

@[simp] theorem validKEntry_vnull (f : String) :
    validKEntry f (some .vnull) = none := rfl

@[simp] theorem validKEntry_none (f : String) :
    validKEntry f none = none := rfl

@[simp] theorem orOne_some (s : ℚ) : orOne (some s) = if s = 0 then 1 else s :=
  rfl

@[simp] theorem orOne_none : orOne none = 1 := rfl

@[simp] theorem isValidEntry_num (q : ℚ) :
    isValidEntry (some (.vnum q)) = true := rfl

@[simp] theorem isValidEntry_vnull : isValidEntry (some .vnull) = false := rfl

@[simp] theorem isValidEntry_vnan : isValidEntry (some .vnan) = false := rfl

@[simp] theorem isValidEntry_none : isValidEntry none = false := rfl

@[simp] theorem weightedOf_scored (d : VarDetail) :
    VarOutcome.weightedOf (.scored d) = some d.weighted_score := rfl

@[simp] theorem weightedOf_notFound :
    VarOutcome.weightedOf .notFound = none := rfl

@[simp] theorem weightedOf_noValidPairs :
    VarOutcome.weightedOf .noValidPairs = none := rfl

@[simp] theorem weightOf_scored (d : VarDetail) :
    VarOutcome.weightOf (.scored d) = some d.weight := rfl

@[simp] theorem weightOf_notFound : VarOutcome.weightOf .notFound = none := rfl

@[simp] theorem weightOf_noValidPairs :
    VarOutcome.weightOf .noValidPairs = none := rfl

@[simp] theorem detailEntryOf_scored (v : String) (d : VarDetail) :
    detailEntryOf v (.scored d) = some (v, d) := rfl

@[simp] theorem detailEntryOf_notFound (v : String) :
    detailEntryOf v .notFound = none := rfl

@[simp] theorem detailEntryOf_noValidPairs (v : String) :
    detailEntryOf v .noValidPairs = none := rfl

@[simp] theorem warningEntryOf_scored (v : String) (d : VarDetail) :
    warningEntryOf v (.scored d) = none := rfl

@[simp] theorem warningEntryOf_notFound (v : String) :
    warningEntryOf v .notFound = some (Warning.varNotFound v) := rfl

@[simp] theorem warningEntryOf_noValidPairs (v : String) :
    warningEntryOf v .noValidPairs = some (Warning.noValidPoints v) := rfl

@[simp] theorem outcomeOfScore_some (ws : ℤ) (ds : List (String × VarDetail))
    (s : ℚ) : outcomeOfScore ws ds (some s) = .scored ⟨ws, round4 s, ds⟩ := rfl

@[simp] theorem outcomeOfScore_none (ws : ℤ) (ds : List (String × VarDetail)) :
    outcomeOfScore ws ds none = .nullScore := rfl

@[simp] theorem scoredWindow_scored (w : WindowRes) :
    WindowOutcome.scoredWindow (.scored w) = some w := rfl

@[simp] theorem scoredWindow_insufficient :
    WindowOutcome.scoredWindow .insufficient = none := rfl

@[simp] theorem scoredWindow_nullScore :
    WindowOutcome.scoredWindow .nullScore = none := rfl

@[simp] theorem isInsufficient_insufficient :
    WindowOutcome.isInsufficient .insufficient = true := rfl

@[simp] theorem isInsufficient_nullScore :
    WindowOutcome.isInsufficient .nullScore = false := rfl

@[simp] theorem isInsufficient_scored (w : WindowRes) :
    WindowOutcome.isInsufficient (.scored w) = false := rfl

@[simp] theorem applyCropOutcome_disqualified (n : String) (dur : ℕ)
    (acc : RunOutput) :
    applyCropOutcome n dur acc .disqualified =
      { acc with summary :=
        { acc.summary with
            crops_processed := acc.summary.crops_processed + 1,
            crops_disqualified_duration :=
              acc.summary.crops_disqualified_duration + 1 } } := rfl

@[simp] theorem applyCropOutcome_errored (n : String) (dur : ℕ)
    (acc : RunOutput) (st : WindowsStats) :
    applyCropOutcome n dur acc (.errored st) =
      { acc with
        summary :=
          { acc.summary with
              crops_processed := acc.summary.crops_processed + 1,
              total_windows_processed :=
                acc.summary.total_windows_processed + st.total_windows,
              windows_insufficient_data :=
                acc.summary.windows_insufficient_data + st.insufficient_data,
              windows_successful :=
                acc.summary.windows_successful + st.valid_windows },
        crop_stats := acc.crop_stats ++ [(n, st)] } := rfl

@[simp] theorem applyCropOutcome_noValidWindows (n : String) (dur : ℕ)
    (acc : RunOutput) (st : WindowsStats) :
    applyCropOutcome n dur acc (.noValidWindows st) =
      { acc with
        summary :=
          { acc.summary with
              crops_processed := acc.summary.crops_processed + 1,
              crops_no_valid_windows :=
                acc.summary.crops_no_valid_windows + 1,
              total_windows_processed :=
                acc.summary.total_windows_processed + st.total_windows,
              windows_insufficient_data :=
                acc.summary.windows_insufficient_data + st.insufficient_data,
              windows_successful :=
                acc.summary.windows_successful + st.valid_windows },
        crop_stats := acc.crop_stats ++ [(n, st)] } := rfl

@[simp] theorem applyCropOutcome_success (n : String) (dur : ℕ)
    (acc : RunOutput) (ws : List WindowRes) (st : WindowsStats) :
    applyCropOutcome n dur acc (.success ws st) =
      { results := acc.results ++ [⟨n, dur, ws⟩],
        summary :=
          { acc.summary with
              crops_processed := acc.summary.crops_processed + 1,
              crops_successful := acc.summary.crops_successful + 1,
              total_windows_processed :=
                acc.summary.total_windows_processed + st.total_windows,
              windows_insufficient_data :=
                acc.summary.windows_insufficient_data + st.insufficient_data,
              windows_successful :=
                acc.summary.windows_successful + st.valid_windows },
        crop_stats := acc.crop_stats ++ [(n, st)] } := rfl

@[simp] theorem kEntryOf_some (v : String) (imp vf : ℚ) :
    kEntryOf v imp (some vf) = (v, JVal.vnum (imp * vf)) := rfl

@[simp] theorem kEntryOf_none (v : String) (imp : ℚ) :
    kEntryOf v imp none =
      (v, if imp = (0 : ℚ) then JVal.vnull else JVal.vnum imp) := rfl

@[simp] theorem calibrateWeather_none (bi : List (String × ℚ)) :
    calibrateWeather bi none = none := rfl

@[simp] theorem calibrateWeather_some (bi : List (String × ℚ))
    (dw : List Day) :
    calibrateWeather bi (some dw) =
      if dw.length = 0 then none else some (kDictOf bi dw) := rfl

@[simp] theorem updateCrop_none (p : String × CalibCrop) :
    updateCrop p none = p := rfl

@[simp] theorem updateCrop_some (p : String × CalibCrop) (kd : Fields) :
    updateCrop p (some kd) = (p.1, { p.2 with k_values := some kd }) := rfl

/- ------------------------------------------------------------------ -/
/- Structural lemmas.                                                  -/
/- ------------------------------------------------------------------ -/

theorem filterMap_cons_eval {α β : Type} (f : α → Option β) (x : α)
    (l : List α) :
    List.filterMap f (x :: l) = (f x).toList ++ List.filterMap f l := by
  cases h : f x <;> simp [List.filterMap_cons, h]

theorem mem_insertByDate (x y : Day) (l : List Day) :
    y ∈ insertByDate x l ↔ y = x ∨ y ∈ l := by
  induction l with
  | nil => simp [insertByDate]
  | cons z t ih =>
    by_cases h : x.date ≤ z.date
    · simp [insertByDate, h]
    · simp only [insertByDate, if_neg h, List.mem_cons, ih]
      tauto

theorem length_insertByDate (x : Day) (l : List Day) :
    (insertByDate x l).length = l.length + 1 := by
  induction l with
  | nil => rfl
  | cons z t ih =>
    by_cases h : x.date ≤ z.date
    · simp [insertByDate, h]
    · simp [insertByDate, h, ih]

theorem sortByDate_length (l : List Day) :
    (sortByDate l).length = l.length := by
  induction l with
  | nil => rfl
  | cons x t ih =>
    show (insertByDate x (sortByDate t)).length = t.length + 1
    rw [length_insertByDate, ih]

theorem mem_insertByScoreDesc (x y : WindowRes) (l : List WindowRes) :
    y ∈ insertByScoreDesc x l ↔ y = x ∨ y ∈ l := by
  induction l with
  | nil => simp [insertByScoreDesc]
  | cons z t ih =>
    by_cases h : x.score ≥ z.score
    · simp [insertByScoreDesc, h]
    · simp only [insertByScoreDesc, if_neg h, List.mem_cons, ih]
      tauto

theorem mem_sortByScoreDesc (y : WindowRes) (l : List WindowRes) :
    y ∈ sortByScoreDesc l ↔ y ∈ l := by
  induction l with
  | nil => simp [sortByScoreDesc]
  | cons x t ih =>
    simp only [sortByScoreDesc, List.foldr_cons] at ih ⊢
    rw [mem_insertByScoreDesc]
    simp [ih]

theorem stepCrop_eq (exp sq : ℚ → ℚ) (cfg : Config) (fDf : List Day)
    (acc : RunOutput) (p : String × Crop) :
    stepCrop exp sq cfg fDf acc p =
      ⟨acc.results ++ (resultFromOutcome p.1
          (sortByDate p.2.daily_weather).length
          (outcomeOf exp sq cfg fDf p)).toList,
       addSummary acc.summary (outcomeDelta (outcomeOf exp sq cfg fDf p)),
       acc.crop_stats ++ (statsFromOutcome p.1
          (outcomeOf exp sq cfg fDf p)).toList⟩ := by
  unfold stepCrop outcomeOf
  cases h : processCrop exp sq cfg fDf p.2 <;>
    simp [resultFromOutcome, statsFromOutcome, outcomeDelta, addSummary]

theorem addSummary_assoc (a b c : Summary) :
    addSummary (addSummary a b) c = addSummary a (addSummary b c) := by
  simp [addSummary, Nat.add_assoc]

theorem addSummary_init (a : Summary) : addSummary initSummary a = a := by
  simp [addSummary, initSummary]

theorem runTotals_cons (exp sq : ℚ → ℚ) (cfg : Config) (fDf : List Day)
    (p : String × Crop) (t : List (String × Crop)) :
    runTotals exp sq cfg fDf (p :: t) =
      addSummary (outcomeDelta (outcomeOf exp sq cfg fDf p))
        (runTotals exp sq cfg fDf t) := by
  unfold runTotals addSummary
  cases h : outcomeOf exp sq cfg fDf p <;>
    simp [outcomeDelta, CropOutcome.isDisq, CropOutcome.isNoValid,
      CropOutcome.isSucc, outcomeStats, List.countP_cons, h, Nat.add_comm]

theorem foldl_stepCrop (exp sq : ℚ → ℚ) (cfg : Config) (fDf : List Day)
    (crops : List (String × Crop)) (acc : RunOutput) :
    crops.foldl (stepCrop exp sq cfg fDf) acc =
      ⟨acc.results ++ crops.filterMap (fun p => resultFromOutcome p.1
          (sortByDate p.2.daily_weather).length (outcomeOf exp sq cfg fDf p)),
       addSummary acc.summary (runTotals exp sq cfg fDf crops),
       acc.crop_stats ++ crops.filterMap (fun p => statsFromOutcome p.1
          (outcomeOf exp sq cfg fDf p))⟩ := by
  induction crops generalizing acc with
  | nil =>
    simp [runTotals, addSummary, List.filterMap_nil]
  | cons p t ih =>
    rw [List.foldl_cons, ih, stepCrop_eq]
    rw [runTotals_cons, ← addSummary_assoc]
    simp [filterMap_cons_eval, List.append_assoc]

/-- Closed form of a whole run. -/
theorem runCropMatching_eq (exp sq : ℚ → ℚ) (cfg : Config)
    (crops : List (String × Crop)) (fc : List Day) :
    runCropMatching exp sq cfg crops fc =
      ⟨crops.filterMap (fun p => resultFromOutcome p.1
          (sortByDate p.2.daily_weather).length
          (outcomeOf exp sq cfg (sortByDate fc) p)),
       runTotals exp sq cfg (sortByDate fc) crops,
       crops.filterMap (fun p => statsFromOutcome p.1
          (outcomeOf exp sq cfg (sortByDate fc) p))⟩ := by
  unfold runCropMatching
  rw [foldl_stepCrop]
  simp [addSummary, initSummary]

theorem scoredWindow_eq_some (o : WindowOutcome) (w : WindowRes) :
    o.scoredWindow = some w ↔ o = .scored w := by
  cases o <;> simp [WindowOutcome.scoredWindow]

theorem processCrop_disq_iff (exp sq : ℚ → ℚ) (cfg : Config)
    (fDf : List Day) (crop : Crop) :
    processCrop exp sq cfg fDf crop = .disqualified ↔
      (sortByDate crop.daily_weather).length > fDf.length := by
  unfold processCrop
  by_cases h : (sortByDate crop.daily_weather).length > fDf.length
  · simp [h]
  · simp only [if_neg h]
    by_cases h0 : (sortByDate crop.daily_weather).length = 0
    · simp [h0, h]
    · simp only [if_neg h0]
      split <;> simp [h]

theorem processCrop_success_inv (exp sq : ℚ → ℚ) (cfg : Config)
    (fDf : List Day) (crop : Crop) (ws : List WindowRes)
    (st : WindowsStats)
    (h : processCrop exp sq cfg fDf crop = .success ws st) :
    ¬ (sortByDate crop.daily_weather).length > fDf.length ∧
      (sortByDate crop.daily_weather).length ≠ 0 ∧
      ws = sortByScoreDesc
        ((cropWindowOutcomes exp sq cfg fDf (sortByDate crop.daily_weather)
            (crop.k_values.getD [])
            (derivedWeights cfg (crop.k_values.getD []))).filterMap
          WindowOutcome.scoredWindow) ∧
      st = statsOfOutcomes
        (cropWindowOutcomes exp sq cfg fDf (sortByDate crop.daily_weather)
          (crop.k_values.getD [])
          (derivedWeights cfg (crop.k_values.getD []))) := by
  unfold processCrop at h
  by_cases hd : (sortByDate crop.daily_weather).length > fDf.length
  · simp [hd] at h
  · simp only [if_neg hd] at h
    by_cases h0 : (sortByDate crop.daily_weather).length = 0
    · simp [h0] at h
    · simp only [if_neg h0] at h
      refine ⟨hd, h0, ?_⟩
      split at h
      · exact ⟨(CropOutcome.success.injEq _ _ _ _).mp h |>.1.symm,
          (CropOutcome.success.injEq _ _ _ _).mp h |>.2.symm⟩
      · simp at h

theorem mem_success_windows (exp sq : ℚ → ℚ) (cfg : Config)
    (fDf : List Day) (crop : Crop) (ws : List WindowRes)
    (st : WindowsStats) (w : WindowRes)
    (h : processCrop exp sq cfg fDf crop = .success ws st)
    (hw : w ∈ ws) :
    ∃ i ∈ windowStarts fDf.length (sortByDate crop.daily_weather).length
        cfg.STEP_SIZE,
      processWindow exp sq cfg fDf (sortByDate crop.daily_weather)
        (crop.k_values.getD [])
        (derivedWeights cfg (crop.k_values.getD [])) i = .scored w := by
  obtain ⟨-, -, hws, -⟩ := processCrop_success_inv exp sq cfg fDf crop ws st h
  rw [hws, mem_sortByScoreDesc] at hw
  rw [List.mem_filterMap] at hw
  obtain ⟨o, ho, hsw⟩ := hw
  unfold cropWindowOutcomes at ho
  rw [List.mem_map] at ho
  obtain ⟨i, hi, hoi⟩ := ho
  exact ⟨i, hi, by rw [hoi]; exact (scoredWindow_eq_some _ _).mp hsw⟩

theorem processWindow_insufficient_iff (exp sq : ℚ → ℚ) (cfg : Config)
    (fDf cropDf : List Day) (kv : Fields)
    (wts : List (String × Option ℚ)) (i : ℕ) :
    processWindow exp sq cfg fDf cropDf kv wts i = .insufficient ↔
      gateFails cfg cropDf.length ((fDf.drop i).take cropDf.length) := by
  unfold processWindow gateFails
  dsimp only
  split
  · next hg => simpa using hg
  · next hg =>
    simp only [Nat.cast_mul] at hg ⊢
    constructor
    · intro h
      cases hsc : (computeScore exp sq cfg ((fDf.drop i).take cropDf.length)
          cropDf kv wts).score <;> rw [hsc] at h <;> simp at h
    · intro h
      exact absurd (by exact_mod_cast h) hg

theorem processWindow_scored_inv (exp sq : ℚ → ℚ) (cfg : Config)
    (fDf cropDf : List Day) (kv : Fields)
    (wts : List (String × Option ℚ)) (i : ℕ) (w : WindowRes)
    (h : processWindow exp sq cfg fDf cropDf kv wts i = .scored w) :
    ¬ gateFails cfg cropDf.length ((fDf.drop i).take cropDf.length) ∧
      ∃ s, (computeScore exp sq cfg ((fDf.drop i).take cropDf.length)
          cropDf kv wts).score = some s ∧
        w = ⟨((((fDf.drop i).take cropDf.length)).headD ⟨0, []⟩).date,
          round4 s,
          (computeScore exp sq cfg ((fDf.drop i).take cropDf.length)
            cropDf kv wts).details⟩ := by
  unfold processWindow at h
  dsimp only at h
  split at h
  · simp at h
  · next hg =>
    refine ⟨by simpa [gateFails, Nat.cast_mul] using hg, ?_⟩
    cases hsc : (computeScore exp sq cfg ((fDf.drop i).take cropDf.length)
        cropDf kv wts).score <;> rw [hsc] at h
    · simp at h
    · next s =>
      refine ⟨s, rfl, ?_⟩
      simpa [outcomeOfScore] using h.symm

theorem weightedOf_eq_details_map (outs : List (String × VarOutcome)) :
    outs.filterMap (fun p => p.2.weightedOf) =
      (outs.filterMap (fun p => detailEntryOf p.1 p.2)).map
        (fun q => q.2.weighted_score) := by
  induction outs with
  | nil => rfl
  | cons p t ih =>
    obtain ⟨v, o⟩ := p
    cases o <;> simp [filterMap_cons_eval, ih]

theorem weightOf_eq_details_map (outs : List (String × VarOutcome)) :
    outs.filterMap (fun p => p.2.weightOf) =
      (outs.filterMap (fun p => detailEntryOf p.1 p.2)).map
        (fun q => q.2.weight) := by
  induction outs with
  | nil => rfl
  | cons p t ih =>
    obtain ⟨v, o⟩ := p
    cases o <;> simp [filterMap_cons_eval, ih]

theorem computeScore_details (exp sq : ℚ → ℚ) (cfg : Config)
    (win crop : List Day) (kv : Fields) (wts : List (String × Option ℚ)) :
    (computeScore exp sq cfg win crop kv wts).details =
      (scoreOutcomes exp sq cfg win crop kv wts).filterMap
        (fun p => detailEntryOf p.1 p.2) := by
  unfold computeScore
  dsimp only
  split <;> rfl

theorem computeScore_score_none_iff (exp sq : ℚ → ℚ) (cfg : Config)
    (win crop : List Day) (kv : Fields) (wts : List (String × Option ℚ)) :
    (computeScore exp sq cfg win crop kv wts).score = none ↔
      (computeScore exp sq cfg win crop kv wts).details = [] ∨
        ((computeScore exp sq cfg win crop kv wts).details.map
          (fun q => q.2.weight)).sum = 0 := by
  rw [computeScore_details]
  unfold computeScore
  dsimp only
  rw [weightedOf_eq_details_map, weightOf_eq_details_map]
  split
  · next hc =>
    simp only [List.length_eq_zero, List.map_eq_nil_iff] at hc
    simpa using hc
  · next hc =>
    simp only [List.length_eq_zero, List.map_eq_nil_iff] at hc
    simpa using hc

theorem computeScore_score_some (exp sq : ℚ → ℚ) (cfg : Config)
    (win crop : List Day) (kv : Fields) (wts : List (String × Option ℚ))
    (s : ℚ)
    (h : (computeScore exp sq cfg win crop kv wts).score = some s) :
    s = ((computeScore exp sq cfg win crop kv wts).details.map
          (fun q => q.2.weighted_score)).sum /
        ((computeScore exp sq cfg win crop kv wts).details.map
          (fun q => q.2.weight)).sum ∧
      (computeScore exp sq cfg win crop kv wts).details ≠ [] ∧
      ((computeScore exp sq cfg win crop kv wts).details.map
        (fun q => q.2.weight)).sum ≠ 0 := by
  have hds := computeScore_details exp sq cfg win crop kv wts
  revert h
  unfold computeScore at hds ⊢
  dsimp only at hds ⊢
  rw [weightedOf_eq_details_map, weightOf_eq_details_map] at hds ⊢
  split
  · intro h
    simp at h
  · next hc =>
    intro h
    simp only [List.length_eq_zero, List.map_eq_nil_iff, not_or] at hc
    obtain ⟨h1, h2⟩ := hc
    refine ⟨?_, by simpa using h1, by simpa using h2⟩
    have := (Option.some.injEq _ _).mp h
    simp [← this]

theorem detailEntryOf_eq_some (v : String) (o : VarOutcome)
    (r : String × VarDetail) (h : detailEntryOf v o = some r) :
    o = .scored r.2 ∧ r.1 = v := by
  cases o <;> simp [detailEntryOf] at h
  simp [← h]

theorem computeScore_details_mem (exp sq : ℚ → ℚ) (cfg : Config)
    (win crop : List Day) (kv : Fields) (wts : List (String × Option ℚ))
    (r : String × VarDetail)
    (hr : r ∈ (computeScore exp sq cfg win crop kv wts).details) :
    r.1 ∈ cfg.REQUIRED_FIELDS ∧
      scoreVariable exp sq cfg win crop kv wts r.1 = .scored r.2 := by
  rw [computeScore_details] at hr
  rw [List.mem_filterMap] at hr
  obtain ⟨p, hp, hpe⟩ := hr
  unfold scoreOutcomes at hp
  rw [List.mem_map] at hp
  obtain ⟨v, hv, hvp⟩ := hp
  obtain ⟨ho, hfst⟩ := detailEntryOf_eq_some p.1 p.2 r hpe
  subst hvp
  simp only at ho hfst
  rw [hfst]
  exact ⟨hv, ho⟩

theorem scoreVariable_scored_inv (exp sq : ℚ → ℚ) (cfg : Config)
    (win crop : List Day) (kv : Fields) (wts : List (String × Option ℚ))
    (v : String) (d : VarDetail)
    (h : scoreVariable exp sq cfg win crop kv wts v = .scored d) :
    (validPairs (extractVals v win) (extractVals v crop)).length ≠ 0 ∧
      d.k_value = kFallback kv v cfg.DEFAULT_K ∧
      d.weight = weightFallback wts v (1 / cfg.REQUIRED_FIELDS.length) ∧
      d.score = varScoreOf exp sq cfg v win crop kv ∧
      d.weighted_score = d.score * d.weight := by
  unfold scoreVariable at h
  split at h
  · dsimp only at h
    split at h
    · simp at h
    · next hp =>
      obtain rfl := (VarOutcome.scored.injEq _ _).mp h
      exact ⟨hp, rfl, rfl, rfl, rfl⟩
  · simp at h

theorem logisticScore_length (exp sq : ℚ → ℚ) (deltas : List ℚ) (k : ℚ) :
    (logisticScore exp sq deltas k).length = deltas.length := by
  simp [logisticScore]

theorem logisticScore_mem_bounds (exp sq : ℚ → ℚ)
    (hexp : ∀ y, 0 < exp y) (deltas : List ℚ) (k : ℚ) (x : ℚ)
    (hx : x ∈ logisticScore exp sq deltas k) : 0 < x ∧ x < 1 := by
  unfold logisticScore at hx
  dsimp only at hx
  simp only [List.mem_map] at hx
  obtain ⟨e, ⟨y, ⟨z, ⟨d, hd, rfl⟩, rfl⟩, rfl⟩, rfl⟩ := hx
  have he : 0 < safeExp exp (-k * sq d) := hexp _
  constructor
  · positivity
  · rw [div_lt_one (by linarith)]
    linarith

theorem list_sum_le_length (l : List ℚ) (h : ∀ x ∈ l, x ≤ 1) :
    l.sum ≤ l.length := by
  induction l with
  | nil => simp
  | cons a t ih =>
    simp only [List.sum_cons, List.length_cons, Nat.cast_add, Nat.cast_one]
    have ha := h a (by simp)
    have ht := ih (fun x hx => h x (by simp [hx]))
    linarith

theorem list_sum_lt_length (l : List ℚ) (hne : l ≠ [])
    (h : ∀ x ∈ l, x < 1) : l.sum < l.length := by
  cases l with
  | nil => exact absurd rfl hne
  | cons a t =>
    simp only [List.sum_cons, List.length_cons, Nat.cast_add, Nat.cast_one]
    have ha := h a (by simp)
    have ht := list_sum_le_length t (fun x hx => le_of_lt (h x (by simp [hx])))
    linarith

theorem mean_bounds (l : List ℚ) (hne : l ≠ [])
    (h : ∀ x ∈ l, 0 < x ∧ x < 1) :
    0 < l.sum / (l.length : ℚ) ∧ l.sum / (l.length : ℚ) < 1 := by
  have hlen : 0 < (l.length : ℚ) := by
    have := List.length_pos.mpr hne
    exact_mod_cast this
  have hsum : 0 < l.sum := List.sum_pos l (fun x hx => (h x hx).1) hne
  constructor
  · positivity
  · rw [div_lt_one hlen]
    exact list_sum_lt_length l hne (fun x hx => (h x hx).2)

theorem weighted_sum_le (l : List (String × VarDetail))
    (h : ∀ p ∈ l, 0 < p.2.weight ∧ 0 < p.2.score ∧ p.2.score < 1 ∧
      p.2.weighted_score = p.2.score * p.2.weight) :
    (l.map (fun q => q.2.weighted_score)).sum ≤
      (l.map (fun q => q.2.weight)).sum := by
  induction l with
  | nil => simp
  | cons a t ih =>
    simp only [List.map_cons, List.sum_cons]
    obtain ⟨hw, hs, hs1, hws⟩ := h a (by simp)
    have ht := ih (fun p hp => h p (by simp [hp]))
    have : a.2.weighted_score ≤ a.2.weight := by
      rw [hws]
      nlinarith
    linarith

theorem weighted_sum_bounds (l : List (String × VarDetail)) (hne : l ≠ [])
    (h : ∀ p ∈ l, 0 < p.2.weight ∧ 0 < p.2.score ∧ p.2.score < 1 ∧
      p.2.weighted_score = p.2.score * p.2.weight) :
    0 < (l.map (fun q => q.2.weighted_score)).sum ∧
      (l.map (fun q => q.2.weighted_score)).sum <
        (l.map (fun q => q.2.weight)).sum := by
  cases l with
  | nil => exact absurd rfl hne
  | cons a t =>
    simp only [List.map_cons, List.sum_cons]
    obtain ⟨hw, hs, hs1, hws⟩ := h a (by simp)
    have hle := weighted_sum_le t (fun p hp => h p (by simp [hp]))
    have ht0 : 0 ≤ (t.map (fun q => q.2.weighted_score)).sum := by
      apply List.sum_nonneg
      intro x hx
      rw [List.mem_map] at hx
      obtain ⟨p, hp, rfl⟩ := hx
      obtain ⟨hw', hs', -, hws'⟩ := h p (by simp [hp])
      rw [hws']
      positivity
    constructor
    · have : 0 < a.2.weighted_score := by rw [hws]; positivity
      linarith
    · have : a.2.weighted_score < a.2.weight := by rw [hws]; nlinarith
      linarith

theorem round4_bounds (s : ℚ) (h0 : 0 ≤ s) (h1 : s ≤ 1) :
    0 ≤ round4 s ∧ round4 s ≤ 1 := by
  unfold round4
  constructor
  · apply div_nonneg _ (by norm_num)
    have : (0 : ℤ) ≤ ⌊s * 10000 + 1/2⌋ := by
      apply Int.floor_nonneg.mpr
      nlinarith
    exact_mod_cast this
  · rw [div_le_one (by norm_num)]
    have hle : ⌊s * 10000 + 1/2⌋ ≤ ⌊(20001 : ℚ)/2⌋ :=
      Int.floor_le_floor (by nlinarith)
    have h2 : ⌊(20001 : ℚ)/2⌋ = 10000 := by norm_num [Int.floor_eq_iff]
    rw [h2] at hle
    exact_mod_cast hle

theorem alookup_mem {β : Type} (k : String) (l : List (String × β)) (b : β)
    (h : alookup k l = some b) : (k, b) ∈ l := by
  induction l with
  | nil => simp [alookup] at h
  | cons p t ih =>
    unfold alookup at h
    split at h
    · next hpk =>
      obtain rfl := (Option.some.injEq _ _).mp h
      rw [← hpk]
      simp
    · exact List.mem_cons_of_mem _ (ih h)

theorem foldl_jadd_none (vs : List (Option ℚ)) :
    vs.foldl jadd none = none := by
  induction vs with
  | nil => rfl
  | cons x t ih => simpa [jadd] using ih

theorem foldl_jadd_nonneg (vs : List (Option ℚ))
    (h : ∀ x ∈ vs, ∀ q : ℚ, x = some q → 0 ≤ q) (init : ℚ)
    (hi : 0 ≤ init) :
    vs.foldl jadd (some init) = none ∨
      ∃ s, vs.foldl jadd (some init) = some s ∧ 0 ≤ s := by
  induction vs generalizing init with
  | nil => exact Or.inr ⟨init, rfl, hi⟩
  | cons x t ih =>
    cases x with
    | none =>
      left
      simpa [jadd] using foldl_jadd_none t
    | some q =>
      have hq : 0 ≤ q := h (some q) (by simp) q rfl
      simpa [jadd] using
        ih (fun y hy => h y (by simp [hy])) (init + q) (by linarith)

theorem kSumOf_pos (vks : List (String × Option ℚ))
    (h : ∀ p ∈ vks, ∀ q : ℚ, p.2 = some q → 0 ≤ q) : 0 < kSumOf vks := by
  unfold kSumOf
  have h' : ∀ x ∈ vks.map Prod.snd, ∀ q : ℚ, x = some q → 0 ≤ q := by
    intro x hx q hq
    rw [List.mem_map] at hx
    obtain ⟨p, hp, rfl⟩ := hx
    exact h p hp q hq
  rcases foldl_jadd_nonneg (vks.map Prod.snd) h' 0 le_rfl with hn | ⟨s, hs, hsn⟩
  · rw [hn]; norm_num
  · rw [hs]
    by_cases h0 : s = 0
    · simp [h0]
    · simp only [orOne_some, if_neg h0]
      exact lt_of_le_of_ne hsn (Ne.symm h0)

theorem validKValues_mem (cfg : Config) (kv : Fields)
    (r : String × Option ℚ) (hr : r ∈ validKValues cfg kv) :
    r.2 = none ∨ ∃ q, r.2 = some q ∧ alookup r.1 kv = some (.vnum q) := by
  unfold validKValues at hr
  rw [List.mem_filterMap] at hr
  obtain ⟨f, hf, he⟩ := hr
  cases hk : alookup f kv with
  | none => rw [hk] at he; simp at he
  | some v =>
    rw [hk] at he
    cases v with
    | vnum q =>
      simp only [validKEntry_num, Option.some.injEq] at he
      right
      exact ⟨q, by simp [← he], by simp [← he, hk]⟩
    | vnull => simp at he
    | vnan =>
      simp only [validKEntry_vnan, Option.some.injEq] at he
      left
      simp [← he]

theorem derivedWeights_nonneg (cfg : Config) (kv : Fields)
    (hk : ∀ p ∈ kv, KEntryNonneg p.2) (r : String × Option ℚ)
    (hr : r ∈ derivedWeights cfg kv) (q : ℚ) (hq : r.2 = some q) :
    0 ≤ q := by
  unfold derivedWeights at hr
  split at hr
  · unfold defaultVariableWeights at hr
    rw [List.mem_map] at hr
    obtain ⟨f, hf, rfl⟩ := hr
    simp only [Option.some.injEq] at hq
    rw [← hq]
    positivity
  · dsimp only at hr
    rw [List.mem_map] at hr
    obtain ⟨r0, hr0, rfl⟩ := hr
    have hvk : ∀ p ∈ validKValues cfg kv, ∀ q' : ℚ, p.2 = some q' → 0 ≤ q' := by
      intro p hp q' hq'
      rcases validKValues_mem cfg kv p hp with hnone | ⟨q2, hq2, halk⟩
      · rw [hnone] at hq'; exact absurd hq' (by simp)
      · rw [hq2] at hq'
        obtain rfl := (Option.some.injEq _ _).mp hq'
        exact hk _ (alookup_mem _ _ _ halk) q2 rfl
    have hks : 0 < kSumOf (validKValues cfg kv) := kSumOf_pos _ hvk
    cases hr2 : r0.2 with
    | none => rw [hr2] at hq; simp at hq
    | some q0 =>
      rw [hr2] at hq
      simp only [Option.map_some', Option.some.injEq] at hq
      have h0 : 0 ≤ q0 := hvk r0 hr0 q0 hr2
      rw [← hq]
      positivity

theorem weightFallback_pos (wts : List (String × Option ℚ)) (v : String)
    (dflt : ℚ) (hd : 0 < dflt)
    (hw : ∀ p ∈ wts, ∀ q : ℚ, p.2 = some q → 0 ≤ q) :
    0 < weightFallback wts v dflt := by
  unfold weightFallback
  cases ha : alookup v wts with
  | none => simpa using hd
  | some w =>
    cases w with
    | none => simpa using hd
    | some q =>
      simp only [truthyWeight_some]
      by_cases h0 : q = 0
      · simpa [h0] using hd
      · rw [if_neg h0]
        have : 0 ≤ q := hw _ (alookup_mem _ _ _ ha) q rfl
        exact lt_of_le_of_ne this (Ne.symm h0)

theorem foldl_min_le_foldl_max (l : List ℚ) (i j : ℚ) (hij : i ≤ j) :
    l.foldl min i ≤ l.foldl max j := by
  induction l generalizing i j with
  | nil => simpa using hij
  | cons a t ih =>
    simp only [List.foldl_cons]
    exact ih _ _ (le_trans (min_le_left i a) (le_trans hij (le_max_left j a)))

theorem calculateRange_pos (values : List JVal) : 0 < calculateRange values := by
  unfold calculateRange
  dsimp only
  split
  · norm_num
  · next hne =>
    split
    · norm_num
    · next hz =>
      have hle : (values.filterMap JVal.toNum).foldl min
            ((values.filterMap JVal.toNum).headD 0) ≤
          (values.filterMap JVal.toNum).foldl max
            ((values.filterMap JVal.toNum).headD 0) :=
        foldl_min_le_foldl_max _ _ _ le_rfl
      have : (values.filterMap JVal.toNum).foldl min
            ((values.filterMap JVal.toNum).headD 0) ≠
          (values.filterMap JVal.toNum).foldl max
            ((values.filterMap JVal.toNum).headD 0) := by
        intro he
        exact hz (by rw [he]; ring)
      have := lt_of_le_of_ne hle this
      linarith

theorem foldl_min_const (l : List ℚ) (c : ℚ) (h : ∀ x ∈ l, x = c) :
    l.foldl min c = c := by
  induction l with
  | nil => rfl
  | cons a t ih =>
    have ha := h a (by simp)
    simp only [List.foldl_cons, ha, min_self]
    exact ih (fun x hx => h x (by simp [hx]))

theorem foldl_max_const (l : List ℚ) (c : ℚ) (h : ∀ x ∈ l, x = c) :
    l.foldl max c = c := by
  induction l with
  | nil => rfl
  | cons a t ih =>
    have ha := h a (by simp)
    simp only [List.foldl_cons, ha, max_self]
    exact ih (fun x hx => h x (by simp [hx]))

theorem calculateRange_const (values : List JVal) (c : ℚ)
    (hne : values.filterMap JVal.toNum ≠ [])
    (h : ∀ x ∈ values.filterMap JVal.toNum, x = c) :
    calculateRange values = 1 := by
  unfold calculateRange
  dsimp only
  have hhead : (values.filterMap JVal.toNum).headD 0 = c := by
    cases hv : values.filterMap JVal.toNum with
    | nil => exact absurd hv hne
    | cons a t =>
      have := h a (by rw [hv]; simp)
      simpa [hv] using this
  rw [if_neg (by simpa [List.length_eq_zero] using hne), hhead,
    foldl_min_const _ _ h, foldl_max_const _ _ h]
  simp

theorem le_foldl_max (l : List ℚ) (i : ℚ) : i ≤ l.foldl max i := by
  induction l generalizing i with
  | nil => simp
  | cons a t ih => exact le_trans (le_max_left i a) (ih _)

theorem mem_le_foldl_max (l : List ℚ) (i x : ℚ) : x ∈ l → x ≤ l.foldl max i := by
  induction l generalizing i with
  | nil => intro hx; simp at hx
  | cons a t ih =>
    intro hx
    rcases List.mem_cons.mp hx with rfl | hx'
    · exact le_trans (le_max_right i x) (le_foldl_max t _)
    · exact ih _ hx' 

theorem foldl_max_le (l : List ℚ) (i b : ℚ) (hi : i ≤ b)
    (h : ∀ x ∈ l, x ≤ b) : l.foldl max i ≤ b := by
  induction l generalizing i with
  | nil => simpa using hi
  | cons a t ih =>
    simp only [List.foldl_cons]
    exact ih _ (max_le hi (h a (by simp))) (fun x hx => h x (by simp [hx]))

theorem maxRangeOf_ge_one (rs : List (String × ℚ)) : 1 ≤ maxRangeOf rs :=
  le_foldl_max _ _

theorem maxRangeOf_ge_mem (rs : List (String × ℚ)) (p : String × ℚ)
    (hp : p ∈ rs) : p.2 ≤ maxRangeOf rs :=
  mem_le_foldl_max _ _ _ (List.mem_map.mpr ⟨p, hp, rfl⟩)

theorem cropRanges_mem (bi : List (String × ℚ)) (dw : List Day)
    (p : String × ℚ) (hp : p ∈ cropRanges bi dw) :
    p.2 = calculateRange (varValues dw p.1) ∧ varPresent dw p.1 = true := by
  unfold cropRanges at hp
  rw [List.mem_filterMap] at hp
  obtain ⟨q, hq, he⟩ := hp
  split at he
  · next hc =>
    obtain rfl := (Option.some.injEq _ _).mp he
    exact ⟨rfl, hc⟩
  · simp at he

theorem alookup_cropRanges (bi : List (String × ℚ)) (dw : List Day)
    (v : String) (hpres : varPresent dw v = true)
    (hv : (alookup v bi).isSome) :
    alookup v (cropRanges bi dw) =
      some (calculateRange (varValues dw v)) := by
  induction bi with
  | nil => simp [alookup] at hv
  | cons p t ih =>
    unfold cropRanges
    rw [filterMap_cons_eval]
    by_cases hpk : p.1 = v
    · subst hpk
      rw [if_pos hpres]
      simp [alookup]
    · rw [alookup_cons] at hv
      rw [if_neg hpk] at hv
      split

      · simp only [Option.toList_some, List.cons_append, List.nil_append]
        rw [alookup_cons, if_neg hpk]
        exact ih hv
      · simpa using ih hv

theorem alookup_map_keyed {β γ : Type} (g : String → β → γ)
    (l : List (String × β)) (v : String) :
    alookup v (l.map (fun p => (p.1, g p.1 p.2))) =
      (alookup v l).map (g v) := by
  induction l with
  | nil => rfl
  | cons p t ih =>
    rw [List.map_cons, alookup_cons, alookup_cons]
    by_cases hpk : p.1 = v
    · subst hpk
      simp
    · rw [if_neg hpk, if_neg hpk]
      exact ih

theorem alookup_kDictOf (bi : List (String × ℚ)) (dw : List Day)
    (v : String) :
    alookup v (kDictOf bi dw) = (alookup v bi).map
      (fun imp => (kEntryOf v imp (variationFactorOf bi dw v)).2) := by
  have hform : kDictOf bi dw = bi.map (fun p =>
      (p.1, (kEntryOf p.1 p.2 (variationFactorOf bi dw p.1)).2)) := by
    unfold kDictOf
    apply List.map_congr_left
    intro p hp
    cases hx : variationFactorOf bi dw p.1 <;> simp [kEntryOf]
  rw [hform]
  exact alookup_map_keyed
    (fun w imp => (kEntryOf w imp (variationFactorOf bi dw w)).2) bi v

/- ------------------------------------------------------------------ -/
/- Claim theorems.                                                     -/
/- ------------------------------------------------------------------ -/

/-- C5, counterexample: the claim says a constant variable (here `a`,
historical values `[10, 10]`, base importance `5`) gets
`variation_factor = 1.0` and `k_value = base_importance` exactly; the
code's `calculateRange` turns the zero range into `1.0` (the
`max - min || 1.0` guard), so after normalization the variation factor
is `0.5` and the k value is `2.5`, not `5`. -/
theorem C5_counterexample :
    variationFactorOf biA5 dwConst "a" = some (1/2) ∧
      alookup "a" (kDictOf biA5 dwConst) = some (.vnum (5/2)) ∧
      ¬ ((1/2 : ℚ) = 1) ∧ ¬ ((5/2 : ℚ) = 5) := by
  with_unfolding_all decide

/-- C5 (amended): for a variable with at least one valid historical value
and zero variance, `calculateRange` yields `1.0` (not `0`); the variation
factor is therefore `max(0.1, 1 - 0.5 * (1 / maxRange))` where `maxRange`
is the crop's own maximum range clamped below by `1.0`, and the k value
is `base_importance` times that factor — which is never exactly
`base_importance` when the importance is nonzero. -/
theorem C5_constant_variable_k (bi : List (String × ℚ)) (dw : List Day)
    (v : String) (imp c : ℚ)
    (hv : alookup v bi = some imp)
    (hne : (varValues dw v).filterMap JVal.toNum ≠ [])
    (hconst : ∀ x ∈ (varValues dw v).filterMap JVal.toNum, x = c) :
    alookup v (cropRanges bi dw) = some 1 ∧
      variationFactorOf bi dw v =
        some (max (1/10)
          (1 - (1/2) * (1 / maxRangeOf (cropRanges bi dw)))) ∧
      alookup v (kDictOf bi dw) =
        some (.vnum (imp * max (1/10)
          (1 - (1/2) * (1 / maxRangeOf (cropRanges bi dw))))) ∧
      (imp ≠ 0 → imp * max (1/10)
          (1 - (1/2) * (1 / maxRangeOf (cropRanges bi dw))) ≠ imp) := by
  have hpres : varPresent dw v = true := by
    obtain ⟨x, hx⟩ := List.exists_mem_of_ne_nil _ hne
    rw [List.mem_filterMap] at hx
    obtain ⟨jv, hjv, htn⟩ := hx
    unfold varValues at hjv
    rw [List.mem_map] at hjv
    obtain ⟨d, hd, hde⟩ := hjv
    cases jv with
    | vnum q =>
      unfold varPresent
      rw [List.any_eq_true]
      refine ⟨d, hd, ?_⟩
      cases halk : alookup v d.fields with
      | none => rw [halk] at hde; simp at hde
      | some y => simp
    | vnull => simp [JVal.toNum] at htn
    | vnan => simp [JVal.toNum] at htn
  have hrange : calculateRange (varValues dw v) = 1 :=
    calculateRange_const _ c hne hconst
  have hisv : (alookup v bi).isSome := by rw [hv]; rfl
  have hcr : alookup v (cropRanges bi dw) = some 1 := by
    rw [alookup_cropRanges bi dw v hpres hisv, hrange]
  have hM : (1 : ℚ) ≤ maxRangeOf (cropRanges bi dw) := maxRangeOf_ge_one _
  have hM0 : (0 : ℚ) < maxRangeOf (cropRanges bi dw) := by linarith
  have hvf : variationFactorOf bi dw v =
      some (max (1/10)
        (1 - (1/2) * (1 / maxRangeOf (cropRanges bi dw)))) := by
    unfold variationFactorOf
    rw [if_pos hpres]
    unfold normalizeRanges
    rw [alookup_map_keyed (fun w r => r / maxRangeOf (cropRanges bi dw)), hcr]
    simp
  have hfact : max (1/10 : ℚ)
      (1 - (1/2) * (1 / maxRangeOf (cropRanges bi dw))) =
        1 - (1/2) * (1 / maxRangeOf (cropRanges bi dw)) := by
    apply max_eq_right
    have h1 : 1 / maxRangeOf (cropRanges bi dw) ≤ 1 := by
      rw [div_le_one hM0]; exact hM
    linarith
  refine ⟨hcr, hvf, ?_, ?_⟩
  · rw [alookup_kDictOf, hv, hvf]
    simp [kEntryOf]
  · intro himp heq
    have hlt : (1/2 : ℚ) * (1 / maxRangeOf (cropRanges bi dw)) > 0 := by
      have : (0 : ℚ) < 1 / maxRangeOf (cropRanges bi dw) := by positivity
      linarith
    rw [hfact] at heq
    have hprod : imp *
        ((1 - (1/2) * (1 / maxRangeOf (cropRanges bi dw))) - 1) = 0 := by
      calc imp * ((1 - (1/2) * (1 / maxRangeOf (cropRanges bi dw))) - 1)
          = imp * (1 - (1/2) * (1 / maxRangeOf (cropRanges bi dw))) - imp := by
            ring
        _ = 0 := by rw [heq]; ring
    rcases mul_eq_zero.mp hprod with h | h
    · exact himp h
    · linarith

/-- C5 witness: the amended statement applied to the constant crop
(`a = [10, 10]`, base importance 5). -/
theorem C5_witness :
    alookup "a" (cropRanges biA5 dwConst) = some 1 ∧
      alookup "a" (kDictOf biA5 dwConst) =
        some (.vnum (5 * max (1/10)
          (1 - (1/2) * (1 / maxRangeOf (cropRanges biA5 dwConst))))) := by
  have h := C5_constant_variable_k biA5 dwConst "a" 5 10
    (by with_unfolding_all decide)
    (by with_unfolding_all decide)
    (by with_unfolding_all decide)
  exact ⟨h.1, h.2.2.1⟩

/-- C6, counterexample: the claim says the divisor is `1.0` only when the
crop's maximum range is `≤ 0`, so the variable attaining the maximum
range gets normalized variability exactly `1`; for a crop whose only
variable has range `0.5`, the code divides by
`Math.max(0.5, 1.0) = 1.0` and the maximal variable gets `0.5`, not `1`
(the spec-words normalization yields `1`). -/
theorem C6_counterexample :
    alookup "a" (normalizeRanges (cropRanges biA1 dwHalf)) = some (1/2) ∧
      alookup "a" (specNormalizeRanges (cropRanges biA1 dwHalf)) = some 1 ∧
      ¬ ((1/2 : ℚ) = 1) := by
  with_unfolding_all decide

/-- C6 (amended): ranges are normalized by `max(maximum range, 1.0)` —
the divisor is `1.0` whenever the maximum range is at most `1`, not only
when it is `≤ 0`.  All normalized values lie in `(0, 1]`, and a variable
attaining the maximum range gets exactly `1` only when that maximum is at
least `1`. -/
theorem C6_normalization (bi : List (String × ℚ)) (dw : List Day)
    (p : String × ℚ) (hp : p ∈ cropRanges bi dw) :
    normalizeRanges (cropRanges bi dw) =
      (cropRanges bi dw).map
        (fun q => (q.1, q.2 / maxRangeOf (cropRanges bi dw))) ∧
      1 ≤ maxRangeOf (cropRanges bi dw) ∧
      0 < p.2 / maxRangeOf (cropRanges bi dw) ∧
      p.2 / maxRangeOf (cropRanges bi dw) ≤ 1 ∧
      ((1 ≤ p.2 ∧ ∀ q ∈ cropRanges bi dw, q.2 ≤ p.2) →
        p.2 / maxRangeOf (cropRanges bi dw) = 1) := by
  have hM : (1 : ℚ) ≤ maxRangeOf (cropRanges bi dw) := maxRangeOf_ge_one _
  have hM0 : (0 : ℚ) < maxRangeOf (cropRanges bi dw) := by linarith
  have hp2 : 0 < p.2 := by
    rw [(cropRanges_mem bi dw p hp).1]
    exact calculateRange_pos _
  refine ⟨rfl, hM, by positivity, ?_, ?_⟩
  · rw [div_le_one hM0]
    exact maxRangeOf_ge_mem _ _ hp
  · rintro ⟨h1, hmax⟩
    have hle : maxRangeOf (cropRanges bi dw) ≤ p.2 := by
      apply foldl_max_le
      · exact h1
      · intro x hx
        rw [List.mem_map] at hx
        obtain ⟨q, hq, rfl⟩ := hx
        exact hmax q hq
    have : maxRangeOf (cropRanges bi dw) = p.2 :=
      le_antisymm hle (maxRangeOf_ge_mem _ _ hp)
    rw [this]
    exact div_self (by linarith)

/-- C6 witness: the amended statement applied to the crop whose only
variable has range `1/2`. -/
theorem C6_witness :
    0 < ((("a", (1/2 : ℚ)) : String × ℚ)).2 /
        maxRangeOf (cropRanges biA1 dwHalf) ∧
      ((("a", (1/2 : ℚ)) : String × ℚ)).2 /
        maxRangeOf (cropRanges biA1 dwHalf) ≤ 1 := by
  have h := C6_normalization biA1 dwHalf ("a", 1/2)
    (by with_unfolding_all decide)
  exact ⟨h.2.2.1, h.2.2.2.1⟩

theorem foldl_jadd_somes (l : List ℚ) (init : ℚ) :
    (l.map some).foldl jadd (some init) = some (init + l.sum) := by
  induction l generalizing init with
  | nil => simp
  | cons a t ih =>
    simp only [List.map_cons, List.foldl_cons, jadd_some_some]
    rw [ih]
    simp [add_assoc]

theorem list_sum_map_div (l : List ℚ) (c : ℚ) :
    (l.map (fun x => x / c)).sum = l.sum / c := by
  induction l with
  | nil => simp
  | cons a t ih => simp [ih, add_div]

theorem filterMap_validKEntry_all (kv : Fields) (fs : List String)
    (hall : ∀ f ∈ fs, ∃ q, alookup f kv = some (.vnum q)) :
    fs.filterMap (fun f => validKEntry f (alookup f kv)) =
      fs.map (fun f => (f, some (numKOf kv f))) := by
  induction fs with
  | nil => rfl
  | cons f t ih =>
    obtain ⟨q, hq⟩ := hall f (by simp)
    rw [filterMap_cons_eval, hq, List.map_cons]
    have hnum : numKOf kv f = q := by
      unfold numKOf
      rw [hq]
      rfl
    rw [validKEntry_num, hnum]
    rw [ih (fun g hg => hall g (by simp [hg]))]
    rfl

theorem validKValues_all_present (cfg : Config) (kv : Fields)
    (hall : ∀ f ∈ cfg.REQUIRED_FIELDS, ∃ q, alookup f kv = some (.vnum q)) :
    validKValues cfg kv =
      cfg.REQUIRED_FIELDS.map (fun f => (f, some (numKOf kv f))) :=
  filterMap_validKEntry_all kv cfg.REQUIRED_FIELDS hall

/-- C2, counterexample: the claim says each derived weight is the k value
divided by the sum of the present k values, and that with a non-null k
value for every required field the weights sum to 1.  With k values
`{a: 4, b: -4}` (both required fields present and non-null) the present-k
sum is `0`; the source's `kSum || 1` guard then divides by `1`, so the
derived weights are the raw k values `4` and `-4`: they are not the
claimed quotients (which have a zero denominator) and they sum to `0`,
not `1`. -/
theorem C2_counterexample :
    alookup "a" (derivedWeights cfgAB kvC2) = some (some 4) ∧
      presentKSum cfgAB kvC2 = 0 ∧
      specWeightOf cfgAB kvC2 "a" = 0 ∧
      ¬ ((4 : ℚ) = 0) ∧
      ((derivedWeights cfgAB kvC2).filterMap Prod.snd).sum = 0 ∧
      ¬ ((0 : ℚ) = 1) := by
  with_unfolding_all decide

theorem alookup_map_div (c : ℚ) (l : List (String × Option ℚ))
    (v : String) :
    alookup v (l.map (fun p => (p.1, p.2.map (fun q => q / c)))) =
      (alookup v l).map (fun x => x.map (fun q => q / c)) := by
  induction l with
  | nil => rfl
  | cons p t ih =>
    rw [List.map_cons, alookup_cons, alookup_cons]
    by_cases hpk : p.1 = v
    · subst hpk
      simp
    · rw [if_neg hpk, if_neg hpk]
      exact ih

theorem validKEntry_key (g : String) (x : Option JVal)
    (r : String × Option ℚ) (h : validKEntry g x = some r) : r.1 = g := by
  cases x with
  | none => rw [validKEntry_none] at h; cases h
  | some v =>
    cases v with
    | vnum q =>
      rw [validKEntry_num] at h
      obtain rfl := (Option.some.injEq _ _).mp h
      rfl
    | vnull => rw [validKEntry_vnull] at h; cases h
    | vnan =>
      rw [validKEntry_vnan] at h
      obtain rfl := (Option.some.injEq _ _).mp h
      rfl

theorem alookup_filterMap_str_none {γ : Type}
    (F : String → Option (String × γ))
    (hF : ∀ g r, F g = some r → r.1 = g) (l : List String) (f : String)
    (hf : F f = none) : alookup f (l.filterMap F) = none := by
  induction l with
  | nil => rfl
  | cons g t ih =>
    rw [filterMap_cons_eval]
    cases hFg : F g with
    | none => simpa using ih
    | some r =>
      simp only [Option.toList_some, List.cons_append, List.nil_append]
      rw [alookup_cons]
      have hgf : g ≠ f := by
        intro he
        rw [he, hf] at hFg
        cases hFg
      rw [if_neg (by rw [hF g r hFg]; exact hgf)]
      exact ih

theorem alookup_filterMap_str_mem {γ : Type}
    (F : String → Option (String × γ))
    (hF : ∀ g r, F g = some r → r.1 = g) (l : List String) (hnd : l.Nodup)
    (f : String) (hf : f ∈ l) :
    alookup f (l.filterMap F) = (F f).map Prod.snd := by
  induction l with
  | nil => simp at hf
  | cons g t ih =>
    rw [List.nodup_cons] at hnd
    rw [filterMap_cons_eval]
    rcases List.mem_cons.mp hf with rfl | hf2
    · cases hFg : F f with
      | none =>
        simp only [Option.toList_none, List.nil_append, Option.map_none']
        exact alookup_filterMap_str_none F hF t f hFg
      | some r =>
        simp only [Option.toList_some, List.cons_append, List.nil_append,
          Option.map_some']
        rw [alookup_cons, if_pos (hF f r hFg)]
    · have hgf : g ≠ f := fun he => hnd.1 (he ▸ hf2)
      cases hFg : F g with
      | none => simpa using ih hnd.2 hf2
      | some r =>
        simp only [Option.toList_some, List.cons_append, List.nil_append]
        rw [alookup_cons, if_neg (by rw [hF g r hFg]; exact hgf)]
        exact ih hnd.2 hf2

theorem foldl_jadd_mem_none (vs : List (Option ℚ)) (h : none ∈ vs)
    (i : Option ℚ) : vs.foldl jadd i = none := by
  induction vs generalizing i with
  | nil => simp at h
  | cons x t ih =>
    rw [List.foldl_cons]
    rcases List.mem_cons.mp h with he | h2
    · rw [← he]
      have hj : jadd i none = none := by cases i <;> rfl
      rw [hj]
      exact foldl_jadd_none t
    · exact ih h2 _

theorem map_snd_eq_map_some (l : List (String × Option ℚ))
    (h : ∀ p ∈ l, ∃ q : ℚ, p.2 = some q) :
    l.map Prod.snd = (l.filterMap Prod.snd).map some := by
  induction l with
  | nil => rfl
  | cons p t ih =>
    obtain ⟨q, hq⟩ := h p (by simp)
    rw [List.map_cons, filterMap_cons_eval, hq]
    simp only [Option.toList_some, List.cons_append, List.nil_append,
      List.map_cons]
    rw [ih (fun r hr => h r (by simp [hr]))]

theorem validKValues_mem_inv (cfg : Config) (kv : Fields)
    (r : String × Option ℚ) (hr : r ∈ validKValues cfg kv) :
    r.1 ∈ cfg.REQUIRED_FIELDS ∧
      ((r.2 = none ∧ alookup r.1 kv = some .vnan) ∨
        ∃ q : ℚ, r.2 = some q ∧ alookup r.1 kv = some (.vnum q)) := by
  unfold validKValues at hr
  rw [List.mem_filterMap] at hr
  obtain ⟨f, hf, he⟩ := hr
  cases hk : alookup f kv with
  | none => rw [hk, validKEntry_none] at he; cases he
  | some v =>
    rw [hk] at he
    cases v with
    | vnum q =>
      rw [validKEntry_num] at he
      obtain rfl := (Option.some.injEq _ _).mp he
      exact ⟨hf, Or.inr ⟨q, rfl, hk⟩⟩
    | vnull => rw [validKEntry_vnull] at he; cases he
    | vnan =>
      rw [validKEntry_vnan] at he
      obtain rfl := (Option.some.injEq _ _).mp he
      exact ⟨hf, Or.inl ⟨rfl, hk⟩⟩

theorem kSumOf_validK_eq (cfg : Config) (kv : Fields)
    (hnonan : ∀ p ∈ validKValues cfg kv, ∃ q : ℚ, p.2 = some q) :
    kSumOf (validKValues cfg kv) =
      if presentKSum cfg kv = 0 then 1 else presentKSum cfg kv := by
  unfold kSumOf
  rw [map_snd_eq_map_some _ hnonan, foldl_jadd_somes, zero_add, orOne_some]
  rfl

theorem kSumOf_of_nan_mem (vks : List (String × Option ℚ))
    (p₀ : String × Option ℚ) (hp : p₀ ∈ vks) (hnone : p₀.2 = none) :
    kSumOf vks = 1 := by
  unfold kSumOf
  rw [foldl_jadd_mem_none _ (List.mem_map.mpr ⟨p₀, hp, hnone⟩) _]
  rfl

/-- C2 (amended): for a crop with any k values, a required field whose
k value is absent or `null` gets no derived-weight entry at all (so it
is excluded from the normalization denominator, which sums only the
present k values); when no present k value is `NaN` and the present-k
sum is nonzero, every present k value `q` is weighted `q` divided by
that present-k sum; when the present-k sum is `0`, or a present k value
is `NaN` (making the JS sum `NaN`), the source's `kSum || 1` guard
divides by `1` and the weights are the raw k values; and with a
non-null, non-`NaN` k value for every required field and a nonzero sum,
the weight map is exactly the normalized k values and the weights sum
to `1`. -/
theorem C2_weight_normalization (cfg : Config) (kv : Fields)
    (hnd : cfg.REQUIRED_FIELDS.Nodup) (hkv : kv.length ≠ 0) :
    (∀ f : String, alookup f kv = none ∨ alookup f kv = some .vnull →
      alookup f (derivedWeights cfg kv) = none) ∧
    ((∀ f ∈ cfg.REQUIRED_FIELDS, alookup f kv ≠ some .vnan) →
      presentKSum cfg kv ≠ 0 →
      ∀ f ∈ cfg.REQUIRED_FIELDS, ∀ q : ℚ,
        alookup f kv = some (.vnum q) →
        alookup f (derivedWeights cfg kv) =
          some (some (q / presentKSum cfg kv))) ∧
    ((presentKSum cfg kv = 0 ∨
        ∃ f₀ ∈ cfg.REQUIRED_FIELDS, alookup f₀ kv = some .vnan) →
      ∀ f ∈ cfg.REQUIRED_FIELDS, ∀ q : ℚ,
        alookup f kv = some (.vnum q) →
        alookup f (derivedWeights cfg kv) = some (some q)) ∧
    ((∀ f ∈ cfg.REQUIRED_FIELDS, ∃ q : ℚ, alookup f kv = some (.vnum q)) →
      presentKSum cfg kv ≠ 0 →
      derivedWeights cfg kv = cfg.REQUIRED_FIELDS.map
          (fun f => (f, some (numKOf kv f / presentKSum cfg kv))) ∧
        ((derivedWeights cfg kv).filterMap Prod.snd).sum = 1) := by
  have hF : ∀ g r, validKEntry g (alookup g kv) = some r → r.1 = g :=
    fun g r h => validKEntry_key g (alookup g kv) r h
  have hdw : derivedWeights cfg kv = (validKValues cfg kv).map
      (fun p => (p.1, p.2.map
        (fun q => q / kSumOf (validKValues cfg kv)))) := by
    unfold derivedWeights
    rw [if_neg hkv]
  refine ⟨?_, ?_, ?_, ?_⟩
  · intro f hf
    rw [hdw, alookup_map_div]
    have hvnone : alookup f (validKValues cfg kv) = none := by
      unfold validKValues
      apply alookup_filterMap_str_none _ hF
      rcases hf with h | h <;> rw [h] <;> rfl
    rw [hvnone]
    rfl
  · intro hnonan hsum f hfm q hq
    have hvn : ∀ p ∈ validKValues cfg kv, ∃ q2 : ℚ, p.2 = some q2 := by
      intro p hp
      obtain ⟨hp1, hcase⟩ := validKValues_mem_inv cfg kv p hp
      rcases hcase with ⟨-, hnan⟩ | ⟨q2, hq2, -⟩
      · exact absurd hnan (hnonan p.1 hp1)
      · exact ⟨q2, hq2⟩
    have hks : kSumOf (validKValues cfg kv) = presentKSum cfg kv := by
      rw [kSumOf_validK_eq cfg kv hvn, if_neg hsum]
    have halk : alookup f (validKValues cfg kv) = some (some q) := by
      unfold validKValues
      rw [alookup_filterMap_str_mem _ hF cfg.REQUIRED_FIELDS hnd f hfm, hq,
        validKEntry_num]
      rfl
    rw [hdw, alookup_map_div, halk, hks]
    rfl
  · intro hdeg f hfm q hq
    have hks : kSumOf (validKValues cfg kv) = 1 := by
      by_cases hvn : ∀ p ∈ validKValues cfg kv, ∃ q2 : ℚ, p.2 = some q2
      · rw [kSumOf_validK_eq cfg kv hvn]
        rcases hdeg with h0 | ⟨f₀, hf₀, hnan⟩
        · rw [if_pos h0]
        · have hmem : ((f₀ : String), (none : Option ℚ)) ∈
              validKValues cfg kv := by
            unfold validKValues
            exact List.mem_filterMap.mpr
              ⟨f₀, hf₀, by rw [hnan, validKEntry_vnan]⟩
          obtain ⟨q2, hq2⟩ := hvn _ hmem
          cases hq2
      · push_neg at hvn
        obtain ⟨p, hp, hpn⟩ := hvn
        have hpnone : p.2 = none := by
          cases hcc : p.2 with
          | none => rfl
          | some q2 => exact absurd hcc (hpn q2)
        exact kSumOf_of_nan_mem _ p hp hpnone
    have halk : alookup f (validKValues cfg kv) = some (some q) := by
      unfold validKValues
      rw [alookup_filterMap_str_mem _ hF cfg.REQUIRED_FIELDS hnd f hfm, hq,
        validKEntry_num]
      rfl
    rw [hdw, alookup_map_div, halk, hks]
    simp
  · intro hall hsum
    have hvalid := validKValues_all_present cfg kv hall
    have hcomp : (Prod.snd ∘ fun f => (f, some (numKOf kv f))) =
        (some ∘ fun f => numKOf kv f) := rfl
    have hpres : presentKSum cfg kv =
        (cfg.REQUIRED_FIELDS.map (fun f => numKOf kv f)).sum := by
      unfold presentKSum
      rw [hvalid, List.filterMap_map, hcomp, List.filterMap_eq_map]
    have hks : kSumOf (validKValues cfg kv) = presentKSum cfg kv := by
      unfold kSumOf
      rw [hvalid, List.map_map, hcomp, ← List.map_map, foldl_jadd_somes,
        zero_add]
      rw [hpres] at hsum ⊢
      simp [if_neg hsum]
    have ha : derivedWeights cfg kv = cfg.REQUIRED_FIELDS.map
        (fun f => (f, some (numKOf kv f / presentKSum cfg kv))) := by
      unfold derivedWeights
      rw [if_neg hkv]
      dsimp only
      rw [hvalid, List.map_map]
      apply List.map_congr_left
      intro f hf
      simp only [Function.comp_apply, Option.map_some']
      rw [← hvalid, hks]
    refine ⟨ha, ?_⟩
    rw [ha, List.filterMap_map]
    have hcomp2 : (Prod.snd ∘ fun f =>
        (f, some (numKOf kv f / presentKSum cfg kv))) =
        (some ∘ fun f => numKOf kv f / presentKSum cfg kv) := rfl
    rw [hcomp2, List.filterMap_eq_map]
    have hmm : (cfg.REQUIRED_FIELDS.map
        (fun f => numKOf kv f / presentKSum cfg kv)) =
        (cfg.REQUIRED_FIELDS.map (fun f => numKOf kv f)).map
          (fun x => x / presentKSum cfg kv) := by
      rw [List.map_map]
      rfl
    rw [hmm, list_sum_map_div, ← hpres]
    exact div_self hsum

/-- C2 witness: the amended statement applied to k values `{a: 4, b: 6}`
(sum 10): the derived weights are `0.4` and `0.6`, summing to 1. -/
theorem C2_witness :
    alookup "a" (derivedWeights cfgAB kvW2) = some (some (2/5)) ∧
      alookup "b" (derivedWeights cfgAB kvW2) = some (some (3/5)) ∧
      ((derivedWeights cfgAB kvW2).filterMap Prod.snd).sum = 1 := by
  have h := C2_weight_normalization cfgAB kvW2 (by with_unfolding_all decide)
    (by with_unfolding_all decide)
  have hps : presentKSum cfgAB kvW2 = 10 := by with_unfolding_all decide
  have hnonan : ∀ f ∈ cfgAB.REQUIRED_FIELDS,
      alookup f kvW2 ≠ some .vnan := by
    with_unfolding_all decide
  have hsum : presentKSum cfgAB kvW2 ≠ 0 := by rw [hps]; norm_num
  have hall : ∀ f ∈ cfgAB.REQUIRED_FIELDS, ∃ q : ℚ,
      alookup f kvW2 = some (.vnum q) := by
    intro f hf
    have hab : f = "a" ∨ f = "b" := by
      simpa [cfgAB] using hf
    rcases hab with rfl | rfl
    · exact ⟨4, by with_unfolding_all decide⟩
    · exact ⟨6, by with_unfolding_all decide⟩
  refine ⟨?_, ?_, (h.2.2.2 hall hsum).2⟩
  · have ha := h.2.1 hnonan hsum "a" (by simp [cfgAB]) 4
      (by with_unfolding_all decide)
    rw [ha, hps]
    norm_num
  · have hb := h.2.1 hnonan hsum "b" (by simp [cfgAB]) 6
      (by with_unfolding_all decide)
    rw [hb, hps]
    norm_num

/-- C9, counterexample: the claim says neither function mutates
caller-owned records.  `computeCropKValues` builds `{ ...crops }` — a
shallow copy whose entries are the caller's crop objects — and then
assigns `updatedCrops[cropName].k_values = kDict` through the shared
reference, so after the call the caller's crop record carries the new
`k_values`: it does not hold exactly the fields and values it held
before.  Here the crop starts with no `k_values` and ends with some. -/
theorem C9_counterexample :
    ((computeCropKValues cropsCalib biA5).crops.headD
        ("", ⟨none, none⟩)).2.k_values ≠
      (cropsCalib.headD ("", ⟨none, none⟩)).2.k_values ∧
      (computeCropKValues cropsCalib biA5).crops ≠ cropsCalib := by
  with_unfolding_all decide

/-- C9 (amended): `runCropMatching` does not mutate caller data (it maps
every day record to a fresh copy before sorting and never assigns to its
inputs; the embedding is a pure function of its arguments).
`computeCropKValues` preserves every field of each crop except
`k_values`, which it assigns in place on the caller's crop object: each
output entry keeps the input's name and `daily_weather`, and is either
the unchanged input record (skipped crop) or the input record with
`k_values` replaced by the computed dict. -/
theorem C9_field_preservation (crops : List (String × CalibCrop))
    (bi : List (String × ℚ)) :
    List.Forall₂ (fun p q : String × CalibCrop =>
      q.1 = p.1 ∧ q.2.daily_weather = p.2.daily_weather ∧
        (q.2 = p.2 ∨ q.2.k_values =
          some (kDictOf bi (p.2.daily_weather.getD []))))
      crops (computeCropKValues crops bi).crops := by
  unfold computeCropKValues
  dsimp only
  induction crops with
  | nil => constructor
  | cons p t ih =>
    rw [List.map_cons]
    refine List.Forall₂.cons ?_ ih
    cases hc : calibrateCrop bi p.2 with
    | none => simp [updateCrop]
    | some kd =>
      refine ⟨rfl, rfl, Or.inr ?_⟩
      unfold calibrateCrop calibrateWeather at hc
      cases hdw : p.2.daily_weather with
      | none => rw [hdw] at hc; simp at hc
      | some dw =>
        rw [hdw] at hc
        dsimp only at hc
        split at hc
        · simp at hc
        · obtain rfl := (Option.some.injEq _ _).mp hc
          simp [updateCrop, hdw]

theorem alookup_filter_self {β : Type} (v : String) (l : List (String × β)) :
    alookup v (l.filter (fun p => decide (p.1 ≠ v))) = none := by
  induction l with
  | nil => rfl
  | cons p t ih =>
    rw [List.filter_cons]
    by_cases hp : p.1 = v
    · rw [if_neg (by simp [hp])]
      exact ih
    · rw [if_pos (by simp [hp]), alookup_cons, if_neg hp]
      exact ih

theorem alookup_filter_ne {β : Type} (v w : String) (hne : w ≠ v)
    (l : List (String × β)) :
    alookup w (l.filter (fun p => decide (p.1 ≠ v))) = alookup w l := by
  induction l with
  | nil => rfl
  | cons p t ih =>
    rw [List.filter_cons]
    by_cases hp : p.1 = v
    · have hpw : ¬ p.1 = w := by
        rw [hp]
        exact fun h => hne h.symm
      rw [if_neg (by simp [hp]), ih, alookup_cons, if_neg hpw]
    · rw [if_pos (by simp [hp]), alookup_cons, alookup_cons]
      by_cases hw : p.1 = w
      · rw [if_pos hw, if_pos hw]
      · rw [if_neg hw, if_neg hw, ih]

theorem scoreVariable_kv_congr (exp sq : ℚ → ℚ) (cfg : Config)
    (win crop : List Day) (kv₁ kv₂ : Fields)
    (wts : List (String × Option ℚ)) (u : String)
    (h : kFallback kv₁ u cfg.DEFAULT_K = kFallback kv₂ u cfg.DEFAULT_K) :
    scoreVariable exp sq cfg win crop kv₁ wts u =
      scoreVariable exp sq cfg win crop kv₂ wts u := by
  unfold scoreVariable
  rw [h]

theorem computeScore_kv_congr (exp sq : ℚ → ℚ) (cfg : Config)
    (win crop : List Day) (kv₁ kv₂ : Fields)
    (wts : List (String × Option ℚ))
    (h : ∀ u, kFallback kv₁ u cfg.DEFAULT_K =
      kFallback kv₂ u cfg.DEFAULT_K) :
    computeScore exp sq cfg win crop kv₁ wts =
      computeScore exp sq cfg win crop kv₂ wts := by
  have houts : scoreOutcomes exp sq cfg win crop kv₁ wts =
      scoreOutcomes exp sq cfg win crop kv₂ wts := by
    unfold scoreOutcomes
    apply List.map_congr_left
    intro u hu
    rw [scoreVariable_kv_congr exp sq cfg win crop kv₁ kv₂ wts u (h u)]
  unfold computeScore
  rw [houts]

/-- C10: in `computeScore`, the k value used for a required variable is
`kValues[varName] || DEFAULT_K`: whenever the stored k value is absent,
`null`, `NaN` or literally `0`, the fallback `DEFAULT_K` is used and is
what any scored detail records as `k_value`; independently, the weight
used is `variableWeights[varName] || 1/len(REQUIRED_FIELDS)`: whenever
the derived-weight entry is absent, `NaN` or `0`, the uniform fallback
`1/len(REQUIRED_FIELDS)` is used and recorded as `weight`.  Every
scored required variable's detail — with whatever weight was used,
fallback included — enters the details list, and a non-null window
score is the weighted-score sum divided by the sum of exactly those
weights, so a fallback weight is added to the normalization
denominator.  Finally, a literal k of `0` is indistinguishable from a
deleted k entry: the entire `computeScore` result is unchanged. -/
theorem C10_falsy_fallbacks (exp sq : ℚ → ℚ) (cfg : Config)
    (win crop : List Day) (kv : Fields) (wts : List (String × Option ℚ))
    (v : String) :
    ((alookup v kv = none ∨ alookup v kv = some .vnull ∨
        alookup v kv = some .vnan ∨ alookup v kv = some (.vnum 0)) →
      kFallback kv v cfg.DEFAULT_K = cfg.DEFAULT_K ∧
      ∀ d : VarDetail, scoreVariable exp sq cfg win crop kv wts v = .scored d →
        d.k_value = cfg.DEFAULT_K) ∧
    ((alookup v wts = none ∨ alookup v wts = some none ∨
        alookup v wts = some (some 0)) →
      weightFallback wts v (1 / cfg.REQUIRED_FIELDS.length) =
        1 / cfg.REQUIRED_FIELDS.length ∧
      ∀ d : VarDetail, scoreVariable exp sq cfg win crop kv wts v = .scored d →
        d.weight = 1 / cfg.REQUIRED_FIELDS.length) ∧
    (∀ d : VarDetail, v ∈ cfg.REQUIRED_FIELDS →
      scoreVariable exp sq cfg win crop kv wts v = .scored d →
      (v, d) ∈ (computeScore exp sq cfg win crop kv wts).details ∧
      ∀ s : ℚ, (computeScore exp sq cfg win crop kv wts).score = some s →
        s = ((computeScore exp sq cfg win crop kv wts).details.map
              (fun q => q.2.weighted_score)).sum /
            ((computeScore exp sq cfg win crop kv wts).details.map
              (fun q => q.2.weight)).sum) ∧
    (alookup v kv = some (.vnum 0) →
      computeScore exp sq cfg win crop kv wts =
        computeScore exp sq cfg win crop
          (kv.filter (fun p => decide (p.1 ≠ v))) wts) := by
  refine ⟨?_, ?_, ?_, ?_⟩
  · intro hk
    have hkf : ∀ c : ℚ, kFallback kv v c = c := by
      intro c
      unfold kFallback
      rcases hk with h | h | h | h <;> rw [h] <;> simp
    refine ⟨hkf _, ?_⟩
    intro d hd
    obtain ⟨-, hdk, -, -, -⟩ :=
      scoreVariable_scored_inv exp sq cfg win crop kv wts v d hd
    rw [hdk, hkf]
  · intro hw
    have hwf : ∀ c : ℚ, weightFallback wts v c = c := by
      intro c
      unfold weightFallback
      rcases hw with h | h | h <;> rw [h] <;> simp
    refine ⟨hwf _, ?_⟩
    intro d hd
    obtain ⟨-, -, hdw, -, -⟩ :=
      scoreVariable_scored_inv exp sq cfg win crop kv wts v d hd
    rw [hdw, hwf]
  · intro d hv hd
    constructor
    · rw [computeScore_details]
      refine List.mem_filterMap.mpr
        ⟨(v, scoreVariable exp sq cfg win crop kv wts v), ?_, ?_⟩
      · unfold scoreOutcomes
        exact List.mem_map.mpr ⟨v, hv, rfl⟩
      · rw [hd]
        rfl
    · intro s hs
      exact (computeScore_score_some exp sq cfg win crop kv wts s hs).1
  · intro hk0
    apply computeScore_kv_congr
    intro u
    by_cases hu : u = v
    · subst hu
      unfold kFallback
      rw [hk0, alookup_filter_self]
      simp
    · unfold kFallback
      rw [alookup_filter_ne v u hu]

/-- C10 witness: a crop with k value `{a: 0}` and derived weight
`{a: 0}`: the k fallback gives the default k (2), the weight fallback
gives the uniform weight (1), and erasing the zero k entry leaves the
score result unchanged. -/
theorem C10_witness :
    kFallback [("a", JVal.vnum 0)] "a" cfgA.DEFAULT_K = cfgA.DEFAULT_K ∧
      weightFallback [("a", some 0)] "a"
          (1 / cfgA.REQUIRED_FIELDS.length) =
        1 / cfgA.REQUIRED_FIELDS.length ∧
      computeScore expOne sqrtZero cfgA fcW fcW [("a", JVal.vnum 0)]
          [("a", some 0)] =
        computeScore expOne sqrtZero cfgA fcW fcW
          ([("a", JVal.vnum 0)].filter (fun p => decide (p.1 ≠ "a")))
          [("a", some 0)] := by
  have h := C10_falsy_fallbacks expOne sqrtZero cfgA fcW fcW
    [("a", JVal.vnum 0)] [("a", some 0)] "a"
  exact ⟨(h.1 (by right; right; right; with_unfolding_all decide)).1,
    (h.2.1 (by right; right; with_unfolding_all decide)).1,
    h.2.2.2 (by with_unfolding_all decide)⟩

theorem alookup_append {β : Type} (k : String) (xs ys : List (String × β)) :
    alookup k (xs ++ ys) =
      ((alookup k xs).rec (alookup k ys) (fun b => some b) : Option β) := by
  induction xs with
  | nil => rfl
  | cons p t ih =>
    rw [List.cons_append, alookup_cons, alookup_cons]
    by_cases hp : p.1 = k
    · rw [if_pos hp, if_pos hp]
    · rw [if_neg hp, if_neg hp]
      exact ih

theorem nodup_keys_eq {β : Type} (l : List (String × β))
    (hnd : (l.map Prod.fst).Nodup) (k : String) (b₁ b₂ : β)
    (h₁ : (k, b₁) ∈ l) (h₂ : (k, b₂) ∈ l) : b₁ = b₂ := by
  induction l with
  | nil => simp at h₁
  | cons p t ih =>
    rw [List.map_cons, List.nodup_cons] at hnd
    rcases List.mem_cons.mp h₁ with rfl | h₁'
    · rcases List.mem_cons.mp h₂ with h | h₂'
      · exact ((Prod.mk.injEq _ _ _ _).mp h.symm).2
      · exact absurd (List.mem_map.mpr ⟨(k, b₂), h₂', rfl⟩) hnd.1
    · rcases List.mem_cons.mp h₂ with rfl | h₂'
      · exact absurd (List.mem_map.mpr ⟨(k, b₁), h₁', rfl⟩) hnd.1
      · exact ih hnd.2 h₁' h₂'

theorem alookup_filterMap_keys_not_mem {β γ : Type}
    (F : String × β → Option (String × γ))
    (hF : ∀ p r, F p = some r → r.1 = p.1) (l : List (String × β))
    (k : String) (hk : k ∉ l.map Prod.fst) :
    alookup k (l.filterMap F) = none := by
  induction l with
  | nil => rfl
  | cons p t ih =>
    rw [List.map_cons, List.mem_cons, not_or] at hk
    rw [filterMap_cons_eval]
    cases hFp : F p with
    | none => simpa using ih hk.2
    | some r =>
      simp only [Option.toList_some, List.cons_append, List.nil_append]
      rw [alookup_cons, if_neg (by rw [hF p r hFp]; exact fun h => hk.1 h.symm)]
      exact ih hk.2

theorem alookup_filterMap_keys_nodup {β γ : Type}
    (F : String × β → Option (String × γ))
    (hF : ∀ p r, F p = some r → r.1 = p.1) (l : List (String × β))
    (hnd : (l.map Prod.fst).Nodup) (k : String) (b : β)
    (hmem : (k, b) ∈ l) :
    alookup k (l.filterMap F) = (F (k, b)).map Prod.snd := by
  induction l with
  | nil => simp at hmem
  | cons p t ih =>
    rw [List.map_cons, List.nodup_cons] at hnd
    rw [filterMap_cons_eval]
    rcases List.mem_cons.mp hmem with rfl | hmem'
    · cases hFp : F (k, b) with
      | none =>
        simp only [Option.toList_none, List.nil_append, Option.map_none']
        exact alookup_filterMap_keys_not_mem F hF t k hnd.1
      | some r =>
        have hr1 : r.1 = k := hF _ _ hFp
        simp only [Option.toList_some, List.cons_append, List.nil_append]
        rw [alookup_cons, if_pos hr1, Option.map_some']
    · have hpk : p.1 ≠ k := by
        intro h
        exact hnd.1 (by rw [h]; exact List.mem_map.mpr ⟨(k, b), hmem', rfl⟩)
      cases hFp : F p with
      | none => simpa using ih hnd.2 hmem'
      | some r =>
        simp only [Option.toList_some, List.cons_append, List.nil_append]
        rw [alookup_cons, if_neg (by rw [hF p r hFp]; exact hpk)]
        exact ih hnd.2 hmem'

theorem statsFromOutcome_key (n : String) (o : CropOutcome)
    (r : String × WindowsStats) (h : statsFromOutcome n o = some r) :
    r.1 = n := by
  cases o <;> simp [statsFromOutcome] at h <;> simp [← h]

theorem resultFromOutcome_name (n : String) (dur : ℕ) (o : CropOutcome)
    (r : CropResult) (h : resultFromOutcome n dur o = some r) :
    r.name = n ∧ ∃ ws st, o = .success ws st ∧ r.windows = ws := by
  cases o <;> simp [resultFromOutcome] at h
  next ws st =>
    exact ⟨by simp [← h], ws, st, rfl, by simp [← h]⟩

/-- C4: a crop whose (sorted) daily weather is longer than the forecast
series is disqualified: its outcome is `disqualified`, it appears in no
results entry, it has no `windows_stats` log entry (no window was
enumerated or scored for it), the `crops_disqualified_duration` counter
counts exactly the disqualified crops (this one among them), and the
`crops_no_valid_windows` counter counts only the no-valid-windows
outcomes, which this crop's outcome is not. -/
theorem C4_duration_disqualification (exp sq : ℚ → ℚ) (cfg : Config)
    (crops : List (String × Crop)) (fc : List Day) (name : String)
    (crop : Crop)
    (hmem : (name, crop) ∈ crops)
    (hnd : (crops.map Prod.fst).Nodup)
    (hdur : (sortByDate crop.daily_weather).length > (sortByDate fc).length) :
    processCrop exp sq cfg (sortByDate fc) crop = .disqualified ∧
      (∀ r ∈ (runCropMatching exp sq cfg crops fc).results, r.name ≠ name) ∧
      alookup name (runCropMatching exp sq cfg crops fc).crop_stats =
        none ∧
      (runCropMatching exp sq cfg crops
            fc).summary.crops_disqualified_duration =
        crops.countP
          (fun p => (outcomeOf exp sq cfg (sortByDate fc) p).isDisq) ∧
      0 < crops.countP
          (fun p => (outcomeOf exp sq cfg (sortByDate fc) p).isDisq) ∧
      (runCropMatching exp sq cfg crops fc).summary.crops_no_valid_windows =
        crops.countP
          (fun p => (outcomeOf exp sq cfg (sortByDate fc) p).isNoValid) ∧
      (outcomeOf exp sq cfg (sortByDate fc) (name, crop)).isNoValid =
        false := by
  have hdisq : processCrop exp sq cfg (sortByDate fc) crop = .disqualified :=
    (processCrop_disq_iff exp sq cfg (sortByDate fc) crop).mpr hdur
  have hout : outcomeOf exp sq cfg (sortByDate fc) (name, crop) =
      .disqualified := hdisq
  refine ⟨hdisq, ?_, ?_, ?_, ?_, ?_, ?_⟩
  · intro r hr hname
    rw [runCropMatching_eq] at hr
    dsimp only at hr
    rw [List.mem_filterMap] at hr
    obtain ⟨p, hp, hpe⟩ := hr
    obtain ⟨hrn, ws, st, hsucc, -⟩ := resultFromOutcome_name _ _ _ _ hpe
    have hp1 : p.1 = name := by rw [← hrn, hname]
    have hp2 : p.2 = crop := by
      apply nodup_keys_eq crops hnd name
      · rw [← hp1]
        exact (by simpa using hp)
      · exact hmem
    have hpeq : p = (name, crop) := by
      calc p = (p.1, p.2) := rfl
        _ = (name, crop) := by rw [hp1, hp2]
    rw [hpeq, hout] at hsucc
    exact CropOutcome.noConfusion hsucc
  · rw [runCropMatching_eq]
    dsimp only
    rw [alookup_filterMap_keys_nodup
      (fun p => statsFromOutcome p.1 (outcomeOf exp sq cfg (sortByDate fc) p))
      (fun p r h => statsFromOutcome_key _ _ _ h) crops hnd name crop hmem]
    rw [hout]
    rfl
  · rw [runCropMatching_eq]
    rfl
  · rw [List.countP_pos]
    exact ⟨(name, crop), hmem, by rw [hout]; rfl⟩
  · rw [runCropMatching_eq]
    rfl
  · rw [hout]
    rfl


/-- C4 witness: the two-day crop against a one-day forecast is
disqualified, excluded from results, and owns no windows-stats entry. -/
theorem C4_witness :
    processCrop expOne sqrtZero cfgA (sortByDate fcW) cropLong =
        .disqualified ∧
      alookup "c"
        (runCropMatching expOne sqrtZero cfgA cropsLong fcW).crop_stats =
        none := by
  have h := C4_duration_disqualification expOne sqrtZero cfgA cropsLong fcW
    "c" cropLong (by with_unfolding_all decide) (by decide)
    (by with_unfolding_all decide)
  exact ⟨h.1, h.2.2.1⟩

theorem processCrop_not_disq (exp sq : ℚ → ℚ) (cfg : Config)
    (fDf : List Day) (crop : Crop)
    (hdurle : ¬ (sortByDate crop.daily_weather).length > fDf.length)
    (hdur0 : (sortByDate crop.daily_weather).length ≠ 0) :
    processCrop exp sq cfg fDf crop =
        .noValidWindows (statsOfOutcomes (cropWindowOutcomes exp sq cfg fDf
          (sortByDate crop.daily_weather) (crop.k_values.getD [])
          (derivedWeights cfg (crop.k_values.getD [])))) ∨
      ∃ ws, processCrop exp sq cfg fDf crop =
        .success ws (statsOfOutcomes (cropWindowOutcomes exp sq cfg fDf
          (sortByDate crop.daily_weather) (crop.k_values.getD [])
          (derivedWeights cfg (crop.k_values.getD [])))) := by
  unfold processCrop
  rw [if_neg hdurle]
  dsimp only
  rw [if_neg hdur0]
  split
  · right
    exact ⟨_, rfl⟩
  · left
    rfl

/-- C3: an enumerated window whose valid-data ratio is strictly below
`1 - MAX_NAN_RATIO` (with a nonzero slot count, so the JS ratio is a real
number) is never scored: its outcome is `insufficient`, the per-crop
`windows_stats.insufficient_data` counter counts exactly the insufficient
outcomes of that crop's enumeration (this window included), the run
summary's `windows_insufficient_data` is the sum of those per-crop
counters, and every window of that crop that reaches `results` comes from
a different, gate-passing enumeration point. -/
theorem C3_completeness_gate (exp sq : ℚ → ℚ) (cfg : Config)
    (crops : List (String × Crop)) (fc : List Day) (name : String)
    (crop : Crop) (i : ℕ)
    (hmem : (name, crop) ∈ crops)
    (hnd : (crops.map Prod.fst).Nodup)
    (hdurle : ¬ (sortByDate crop.daily_weather).length >
      (sortByDate fc).length)
    (hdur0 : (sortByDate crop.daily_weather).length ≠ 0)
    (hi : i ∈ windowStarts (sortByDate fc).length
      (sortByDate crop.daily_weather).length cfg.STEP_SIZE)
    (hgate : gateFails cfg (sortByDate crop.daily_weather).length
      (((sortByDate fc).drop i).take
        (sortByDate crop.daily_weather).length)) :
    processWindow exp sq cfg (sortByDate fc) (sortByDate crop.daily_weather)
        (crop.k_values.getD [])
        (derivedWeights cfg (crop.k_values.getD [])) i = .insufficient ∧
      (∃ st : WindowsStats,
        alookup name (runCropMatching exp sq cfg crops fc).crop_stats =
          some st ∧
        st.insufficient_data = (cropWindowOutcomes exp sq cfg (sortByDate fc)
          (sortByDate crop.daily_weather) (crop.k_values.getD [])
          (derivedWeights cfg (crop.k_values.getD []))).countP
            (fun o => o.isInsufficient) ∧
        0 < st.insufficient_data) ∧
      (runCropMatching exp sq cfg crops fc).summary.windows_insufficient_data =
        (crops.map (fun p => (outcomeStats (outcomeOf exp sq cfg
          (sortByDate fc) p)).insufficient_data)).sum ∧
      (∀ r ∈ (runCropMatching exp sq cfg crops fc).results, r.name = name →
        ∀ w ∈ r.windows,
          ∃ j ∈ windowStarts (sortByDate fc).length
              (sortByDate crop.daily_weather).length cfg.STEP_SIZE,
            j ≠ i ∧ processWindow exp sq cfg (sortByDate fc)
              (sortByDate crop.daily_weather) (crop.k_values.getD [])
              (derivedWeights cfg (crop.k_values.getD [])) j =
              .scored w) := by
  have hins : processWindow exp sq cfg (sortByDate fc)
      (sortByDate crop.daily_weather) (crop.k_values.getD [])
      (derivedWeights cfg (crop.k_values.getD [])) i = .insufficient :=
    (processWindow_insufficient_iff exp sq cfg (sortByDate fc)
      (sortByDate crop.daily_weather) (crop.k_values.getD [])
      (derivedWeights cfg (crop.k_values.getD [])) i).mpr hgate
  have houts : WindowOutcome.insufficient ∈ cropWindowOutcomes exp sq cfg
      (sortByDate fc) (sortByDate crop.daily_weather)
      (crop.k_values.getD [])
      (derivedWeights cfg (crop.k_values.getD [])) := by
    unfold cropWindowOutcomes
    rw [List.mem_map]
    exact ⟨i, hi, hins⟩
  have hstats : statsFromOutcome name (outcomeOf exp sq cfg (sortByDate fc)
      (name, crop)) = some (name, statsOfOutcomes (cropWindowOutcomes exp sq
        cfg (sortByDate fc) (sortByDate crop.daily_weather)
        (crop.k_values.getD [])
        (derivedWeights cfg (crop.k_values.getD [])))) := by
    rcases processCrop_not_disq exp sq cfg (sortByDate fc) crop hdurle hdur0
      with h | ⟨ws, h⟩
    · unfold outcomeOf
      rw [h]
      rfl
    · unfold outcomeOf
      rw [h]
      rfl
  refine ⟨hins, ?_, ?_, ?_⟩
  · refine ⟨statsOfOutcomes (cropWindowOutcomes exp sq cfg (sortByDate fc)
      (sortByDate crop.daily_weather) (crop.k_values.getD [])
      (derivedWeights cfg (crop.k_values.getD []))), ?_, rfl, ?_⟩
    · rw [runCropMatching_eq]
      dsimp only
      rw [alookup_filterMap_keys_nodup
        (fun p => statsFromOutcome p.1
          (outcomeOf exp sq cfg (sortByDate fc) p))
        (fun p r h => statsFromOutcome_key _ _ _ h) crops hnd name crop hmem]
      rw [hstats]
      rfl
    · unfold statsOfOutcomes
      dsimp only
      rw [List.countP_pos]
      exact ⟨.insufficient, houts, rfl⟩
  · rw [runCropMatching_eq]
    rfl
  · intro r hr hname w hw
    rw [runCropMatching_eq] at hr
    dsimp only at hr
    rw [List.mem_filterMap] at hr
    obtain ⟨p, hp, hpe⟩ := hr
    obtain ⟨hrn, ws, st, hsucc, hwin⟩ := resultFromOutcome_name _ _ _ _ hpe
    have hp1 : p.1 = name := by rw [← hrn, hname]
    have hp2 : p.2 = crop := by
      apply nodup_keys_eq crops hnd name
      · rw [← hp1]
        exact (by simpa using hp)
      · exact hmem
    have hpeq : p = (name, crop) := by
      calc p = (p.1, p.2) := rfl
        _ = (name, crop) := by rw [hp1, hp2]
    rw [hpeq] at hsucc
    rw [hwin] at hw
    obtain ⟨j, hj, hpwj⟩ := mem_success_windows exp sq cfg (sortByDate fc)
      crop ws st w hsucc hw
    refine ⟨j, hj, ?_, hpwj⟩
    intro hji
    rw [hji, hins] at hpwj
    exact WindowOutcome.noConfusion hpwj

/-- C3 witness: the one-day crop against a forecast whose only value is
`null`: the single window fails the gate and the run counts it. -/
theorem C3_witness :
    processWindow expOne sqrtZero cfgA (sortByDate fcNull)
        (sortByDate cropW.daily_weather) (cropW.k_values.getD [])
        (derivedWeights cfgA (cropW.k_values.getD [])) 0 = .insufficient ∧
      (runCropMatching expOne sqrtZero cfgA cropsW
          fcNull).summary.windows_insufficient_data =
        (cropsW.map (fun p => (outcomeStats (outcomeOf expOne sqrtZero cfgA
          (sortByDate fcNull) p)).insufficient_data)).sum := by
  have h := C3_completeness_gate expOne sqrtZero cfgA cropsW fcNull "c"
    cropW 0 (by with_unfolding_all decide) (by decide)
    (by with_unfolding_all decide) (by with_unfolding_all decide)
    (by with_unfolding_all decide) (by with_unfolding_all decide)
  exact ⟨h.1, h.2.2.1⟩

theorem validPairs_getD (fv ov : List JVal) (j : ℕ) (qf qo : ℚ)
    (hf : fv.getD j .vnan = .vnum qf) (ho : ov.getD j .vnan = .vnum qo) :
    (qf, qo) ∈ validPairs fv ov := by
  induction fv generalizing ov j with
  | nil => simp [List.getD] at hf
  | cons a fs ih =>
    cases ov with
    | nil => simp [List.getD] at ho
    | cons b os =>
      unfold validPairs
      rw [List.zip_cons_cons, filterMap_cons_eval]
      cases j with
      | zero =>
        rw [List.getD_cons_zero] at hf ho
        rw [hf, ho]
        simp [pairOf]
      | succ n =>
        rw [List.getD_cons_succ] at hf ho
        rw [List.mem_append]
        right
        exact ih os n hf ho

theorem validPairs_mem_inv (fv ov : List JVal) (pr : ℚ × ℚ)
    (hpr : pr ∈ validPairs fv ov) :
    ∃ j, fv.getD j .vnan = .vnum pr.1 ∧ ov.getD j .vnan = .vnum pr.2 := by
  induction fv generalizing ov with
  | nil => simp [validPairs] at hpr
  | cons a fs ih =>
    cases ov with
    | nil => simp [validPairs] at hpr
    | cons b os =>
      unfold validPairs at hpr
      rw [List.zip_cons_cons, filterMap_cons_eval, List.mem_append] at hpr
      rcases hpr with hh | ht
      · cases ha : a <;> cases hb : b <;> rw [ha, hb] at hh <;>
          simp [pairOf] at hh
        subst hh
        exact ⟨0, by simp [ha], by simp [hb]⟩
      · obtain ⟨j, h1, h2⟩ := ih os ht
        exact ⟨j + 1, by simpa using h1, by simpa using h2⟩

theorem computeScore_warnings_sup (exp sq : ℚ → ℚ) (cfg : Config)
    (win crop : List Day) (kv : Fields) (wts : List (String × Option ℚ))
    (w : Warning)
    (hw : w ∈ (scoreOutcomes exp sq cfg win crop kv wts).filterMap
      (fun p => warningEntryOf p.1 p.2)) :
    w ∈ (computeScore exp sq cfg win crop kv wts).warnings := by
  unfold computeScore
  dsimp only
  split
  · exact List.mem_append_left _ hw
  · exact hw

/-- C7, counterexample: the claim says `computeScore` drops exactly the
days where either side is null/NaN, never discards a day that is valid
on both sides, and skips a variable iff zero valid pairs remain.  In a
window passing the gate (`MAX_NAN_RATIO = 0.6`) whose variable is absent
from one forecast day, the day-aligned pairs are `[(10, 10)]` (nonempty,
day 0 valid on both sides), yet the `every((day) => varName in day)`
pre-check skips the variable wholesale and the window scores `null`. -/
theorem C7_counterexample :
    ¬ gateFails cfgA6 cropCex7.length winCex7 ∧
      validPairs (extractVals "a" winCex7) (extractVals "a" cropCex7) =
        [(10, 10)] ∧
      scoreVariable expOne sqrtZero cfgA6 winCex7 cropCex7 [] [] "a" =
        .notFound ∧
      (computeScore expOne sqrtZero cfgA6 winCex7 cropCex7 [] []).score =
        none := by
  with_unfolding_all decide

/-- C7 (amended): provided the variable is present (its key exists) in
every day of both the window and the crop data — the source's
`every((day) => varName in day)` pre-check, which otherwise skips the
variable wholesale even when some days are valid on both sides — the
day-aligned pairs drop exactly the days where either side is null/NaN:
a day valid on both sides always contributes its pair, every pair comes
from such a day, the variable is skipped (`noValidPairs`, a warning
pushed to the window log, not an error) iff zero pairs remain, and with
at least one pair it is scored with `valid_points` the number of pairs. -/
theorem C7_pair_dropping (exp sq : ℚ → ℚ) (cfg : Config)
    (win crop : List Day) (kv : Fields) (wts : List (String × Option ℚ))
    (v : String)
    (hv : v ∈ cfg.REQUIRED_FIELDS)
    (hwin : hasVarEveryDay v win = true)
    (hcrop : hasVarEveryDay v crop = true) :
    (∀ j : ℕ, ∀ qf qo : ℚ,
      (extractVals v win).getD j .vnan = .vnum qf →
      (extractVals v crop).getD j .vnan = .vnum qo →
      (qf, qo) ∈ validPairs (extractVals v win) (extractVals v crop)) ∧
    (∀ pr ∈ validPairs (extractVals v win) (extractVals v crop),
      ∃ j : ℕ, (extractVals v win).getD j .vnan = .vnum pr.1 ∧
        (extractVals v crop).getD j .vnan = .vnum pr.2) ∧
    (scoreVariable exp sq cfg win crop kv wts v = .noValidPairs ↔
      validPairs (extractVals v win) (extractVals v crop) = []) ∧
    (validPairs (extractVals v win) (extractVals v crop) = [] →
      Warning.noValidPoints v ∈
        (computeScore exp sq cfg win crop kv wts).warnings) ∧
    (validPairs (extractVals v win) (extractVals v crop) ≠ [] →
      ∃ d, scoreVariable exp sq cfg win crop kv wts v = .scored d ∧
        d.valid_points =
          (validPairs (extractVals v win) (extractVals v crop)).length) := by
  have hcond : (hasVarEveryDay v win && hasVarEveryDay v crop) = true := by
    rw [hwin, hcrop]
    rfl
  have hsv : ∀ h : (validPairs (extractVals v win)
        (extractVals v crop)).length = 0,
      scoreVariable exp sq cfg win crop kv wts v = .noValidPairs := by
    intro h
    unfold scoreVariable
    rw [if_pos hcond]
    dsimp only
    rw [if_pos h]
  refine ⟨validPairs_getD _ _, validPairs_mem_inv _ _, ?_, ?_, ?_⟩
  · constructor
    · intro h
      by_contra hne
      have hlen : (validPairs (extractVals v win)
          (extractVals v crop)).length ≠ 0 := by
        simpa [List.length_eq_zero] using hne
      unfold scoreVariable at h
      rw [if_pos hcond] at h
      dsimp only at h
      rw [if_neg hlen] at h
      exact VarOutcome.noConfusion h
    · intro h
      exact hsv (by rw [h]; rfl)
  · intro h
    apply computeScore_warnings_sup
    rw [List.mem_filterMap]
    refine ⟨(v, scoreVariable exp sq cfg win crop kv wts v), ?_, ?_⟩
    · unfold scoreOutcomes
      rw [List.mem_map]
      exact ⟨v, hv, rfl⟩
    · rw [hsv (by rw [h]; rfl)]
      rfl
  · intro hne
    have hlen : (validPairs (extractVals v win)
        (extractVals v crop)).length ≠ 0 := by
      simpa [List.length_eq_zero] using hne
    unfold scoreVariable
    rw [if_pos hcond]
    dsimp only
    rw [if_neg hlen]
    exact ⟨_, rfl, rfl⟩

/-- C7 witness: the amended statement applied to a window and crop both
fully populated on the single required field. -/
theorem C7_witness :
    scoreVariable expOne sqrtZero cfgA fcW fcW [] [] "a" = .noValidPairs ↔
      validPairs (extractVals "a" fcW) (extractVals "a" fcW) = [] := by
  have h := C7_pair_dropping expOne sqrtZero cfgA fcW fcW [] [] "a"
    (by decide) (by with_unfolding_all decide) (by with_unfolding_all decide)
  exact h.2.2.1

set_option maxHeartbeats 2000000 in
/-- C8: a valid pair whose relative delta is `0` receives a logistic
score of exactly `1/2` for every `k` (since `sqrt 0 = 0` and
`exp 0 = 1`), and in the spec's end-to-end scenario — a 2-day crop with
`temperature_2m_max` values `[10, 12]`, `k = 2.0`, matched with
`STEP_SIZE = 1` against the 4-day forecast `[10, 12, 10, 12]` of that
same variable — the crop succeeds and its result contains scored
windows at offsets `0` and `2`, each with score exactly `1/2`. -/
theorem C8_exact_match_baseline (exp sq : ℚ → ℚ)
    (hexp0 : exp 0 = 1) (hsq0 : sq 0 = 0) :
    (∀ k : ℚ, logisticScore exp sq [0] k = [1/2]) ∧
      (∃ r ∈ (runCropMatching exp sq cfgC8 cropsC8 fcC8).results,
        r.name = "maize" ∧
        (∃ w ∈ r.windows, w.start = 0 ∧ w.score = 1/2) ∧
        (∃ w ∈ r.windows, w.start = 2 ∧ w.score = 1/2)) := by
  constructor
  · intro k
    simp [logisticScore, safeExp, clamp709, hsq0, min_def, max_def]
    norm_num [hexp0]
  · have hsfc : sortByDate fcC8 = fcC8 := by
      with_unfolding_all decide
    have hwts : derivedWeights cfgC8 (cropC8.k_values.getD []) =
        [("temperature_2m_max", some 1)] := by
      with_unfolding_all decide
    have hslice0 : (fcC8.drop 0).take 2 =
        [(⟨0, [("temperature_2m_max", .vnum 10)]⟩ : Day),
         ⟨1, [("temperature_2m_max", .vnum 12)]⟩] := by
      with_unfolding_all decide
    have hslice2 : (fcC8.drop 2).take 2 =
        [(⟨2, [("temperature_2m_max", .vnum 10)]⟩ : Day),
         ⟨3, [("temperature_2m_max", .vnum 12)]⟩] := by
      with_unfolding_all decide
    have h0 : processWindow exp sq cfgC8 fcC8 (sortByDate cropC8.daily_weather)
        (cropC8.k_values.getD [])
        (derivedWeights cfgC8 (cropC8.k_values.getD [])) 0 =
        .scored ⟨0, 1/2, detsC8⟩ := by
      rw [hwts]
      have hsort : sortByDate cropC8.daily_weather = cropC8.daily_weather := by
        with_unfolding_all decide
      rw [hsort]
      simp [processWindow, computeScore, scoreOutcomes, scoreVariable,
        hasVarEveryDay, extractVals, validPairs, kFallback, weightFallback,
        logisticScore, safeExp, clamp709, countValidValues, round4, cropC8,
        cfgC8, fcC8, detsC8, hslice0, filterMap_cons_eval, hsq0, min_def,
        max_def]
      norm_num [hexp0, round4]
    have h2 : processWindow exp sq cfgC8 fcC8 (sortByDate cropC8.daily_weather)
        (cropC8.k_values.getD [])
        (derivedWeights cfgC8 (cropC8.k_values.getD [])) 2 =
        .scored ⟨2, 1/2, detsC8⟩ := by
      rw [hwts]
      have hsort : sortByDate cropC8.daily_weather = cropC8.daily_weather := by
        with_unfolding_all decide
      rw [hsort]
      simp [processWindow, computeScore, scoreOutcomes, scoreVariable,
        hasVarEveryDay, extractVals, validPairs, kFallback, weightFallback,
        logisticScore, safeExp, clamp709, countValidValues, round4, cropC8,
        cfgC8, fcC8, detsC8, hslice2, filterMap_cons_eval, hsq0, min_def,
        max_def]
      norm_num [hexp0, round4]
    have hstarts : windowStarts fcC8.length
        (sortByDate cropC8.daily_weather).length cfgC8.STEP_SIZE =
        [0, 1, 2] := by
      with_unfolding_all decide
    have hmem0 : (⟨0, 1/2, detsC8⟩ : WindowRes) ∈
        (cropWindowOutcomes exp sq cfgC8 fcC8 (sortByDate cropC8.daily_weather)
          (cropC8.k_values.getD [])
          (derivedWeights cfgC8 (cropC8.k_values.getD []))).filterMap
          WindowOutcome.scoredWindow := by
      refine List.mem_filterMap.mpr
        ⟨processWindow exp sq cfgC8 fcC8 (sortByDate cropC8.daily_weather)
          (cropC8.k_values.getD [])
          (derivedWeights cfgC8 (cropC8.k_values.getD [])) 0, ?_, ?_⟩
      · unfold cropWindowOutcomes
        rw [hstarts]
        exact List.mem_map.mpr ⟨0, by norm_num, rfl⟩
      · rw [h0]; rfl
    have hmem2 : (⟨2, 1/2, detsC8⟩ : WindowRes) ∈
        (cropWindowOutcomes exp sq cfgC8 fcC8 (sortByDate cropC8.daily_weather)
          (cropC8.k_values.getD [])
          (derivedWeights cfgC8 (cropC8.k_values.getD []))).filterMap
          WindowOutcome.scoredWindow := by
      refine List.mem_filterMap.mpr
        ⟨processWindow exp sq cfgC8 fcC8 (sortByDate cropC8.daily_weather)
          (cropC8.k_values.getD [])
          (derivedWeights cfgC8 (cropC8.k_values.getD [])) 2, ?_, ?_⟩
      · unfold cropWindowOutcomes
        rw [hstarts]
        exact List.mem_map.mpr ⟨2, by norm_num, rfl⟩
      · rw [h2]; rfl
    have hws_pos := List.length_pos_of_mem hmem0
    have hpc : processCrop exp sq cfgC8 fcC8 cropC8 =
        .success (sortByScoreDesc
          ((cropWindowOutcomes exp sq cfgC8 fcC8
            (sortByDate cropC8.daily_weather) (cropC8.k_values.getD [])
            (derivedWeights cfgC8 (cropC8.k_values.getD []))).filterMap
            WindowOutcome.scoredWindow))
          (statsOfOutcomes (cropWindowOutcomes exp sq cfgC8 fcC8
            (sortByDate cropC8.daily_weather) (cropC8.k_values.getD [])
            (derivedWeights cfgC8 (cropC8.k_values.getD [])))) := by
      unfold processCrop
      dsimp only
      rw [if_neg (by with_unfolding_all decide),
          if_neg (by with_unfolding_all decide),
          if_pos hws_pos]
    have hres : (runCropMatching exp sq cfgC8 cropsC8 fcC8).results =
        [⟨"maize", (sortByDate cropC8.daily_weather).length,
          sortByScoreDesc
            ((cropWindowOutcomes exp sq cfgC8 fcC8
              (sortByDate cropC8.daily_weather) (cropC8.k_values.getD [])
              (derivedWeights cfgC8 (cropC8.k_values.getD []))).filterMap
              WindowOutcome.scoredWindow)⟩] := by
      rw [runCropMatching_eq]
      dsimp only
      simp only [cropsC8, List.filterMap_cons, List.filterMap_nil]
      rw [hsfc]
      unfold outcomeOf
      dsimp only
      rw [hpc]
      rfl
    refine ⟨⟨"maize", (sortByDate cropC8.daily_weather).length,
      sortByScoreDesc
        ((cropWindowOutcomes exp sq cfgC8 fcC8
          (sortByDate cropC8.daily_weather) (cropC8.k_values.getD [])
          (derivedWeights cfgC8 (cropC8.k_values.getD []))).filterMap
          WindowOutcome.scoredWindow)⟩, ?_, rfl, ?_, ?_⟩
    · rw [hres]; exact List.mem_singleton.mpr rfl
    · exact ⟨⟨0, 1/2, detsC8⟩, (mem_sortByScoreDesc _ _).mpr hmem0, rfl, rfl⟩
    · exact ⟨⟨2, 1/2, detsC8⟩, (mem_sortByScoreDesc _ _).mpr hmem2, rfl, rfl⟩

/-- Witness for C8 at the concrete interpretations `expOne` and
`sqrtZero` of `Math.exp` and `Math.sqrt`. -/
theorem C8_witness :
    (∀ k : ℚ, logisticScore expOne sqrtZero [0] k = [1/2]) ∧
      (∃ r ∈ (runCropMatching expOne sqrtZero cfgC8 cropsC8 fcC8).results,
        r.name = "maize" ∧
        (∃ w ∈ r.windows, w.start = 0 ∧ w.score = 1/2) ∧
        (∃ w ∈ r.windows, w.start = 2 ∧ w.score = 1/2)) :=
  C8_exact_match_baseline expOne sqrtZero rfl rfl

/-- The per-variable mean logistic score lies strictly between `0` and
`1` whenever at least one valid pair exists and the `exp` interpretation
is positive (true of `Math.exp`); no sign condition on `k` is needed
here. -/
theorem varScoreOf_bounds (exp sq : ℚ → ℚ) (hexp : ∀ y, 0 < exp y)
    (cfg : Config) (v : String) (win crop : List Day) (kv : Fields)
    (hne : (validPairs (extractVals v win) (extractVals v crop)).length ≠ 0) :
    0 < varScoreOf exp sq cfg v win crop kv ∧
      varScoreOf exp sq cfg v win crop kv < 1 := by
  unfold varScoreOf
  dsimp only
  have hlen : (logisticScore exp sq (relDeltasOf v win crop)
      (kFallback kv v cfg.DEFAULT_K)).length =
      (validPairs (extractVals v win) (extractVals v crop)).length := by
    rw [logisticScore_length]
    unfold relDeltasOf
    rw [List.length_map]
  have hnil : logisticScore exp sq (relDeltasOf v win crop)
      (kFallback kv v cfg.DEFAULT_K) ≠ [] := by
    intro h
    rw [h] at hlen
    exact hne hlen.symm
  exact mean_bounds _ hnil
    (fun x hx => logisticScore_mem_bounds exp sq hexp _ _ x hx)

/-- A non-null `computeScore` score computed with weights derived from
nonnegative k values lies strictly between `0` and `1`. -/
theorem computeScore_score_bounds (exp sq : ℚ → ℚ) (hexp : ∀ y, 0 < exp y)
    (cfg : Config) (win crop : List Day) (kv : Fields)
    (hk : ∀ p ∈ kv, KEntryNonneg p.2) (s : ℚ)
    (h : (computeScore exp sq cfg win crop kv
        (derivedWeights cfg kv)).score = some s) : 0 < s ∧ s < 1 := by
  obtain ⟨hs, hne, hwsum⟩ := computeScore_score_some exp sq cfg win crop kv
    (derivedWeights cfg kv) s h
  have hall : ∀ p ∈ (computeScore exp sq cfg win crop kv
      (derivedWeights cfg kv)).details,
      0 < p.2.weight ∧ 0 < p.2.score ∧ p.2.score < 1 ∧
        p.2.weighted_score = p.2.score * p.2.weight := by
    intro p hp
    obtain ⟨hmem, hsv⟩ := computeScore_details_mem exp sq cfg win crop kv
      (derivedWeights cfg kv) p hp
    obtain ⟨hpairs, hkq, hwq, hscq, hwsq⟩ := scoreVariable_scored_inv exp sq
      cfg win crop kv (derivedWeights cfg kv) p.1 p.2 hsv
    have hlnil : cfg.REQUIRED_FIELDS ≠ [] := List.ne_nil_of_mem hmem
    have hlpos : (0 : ℚ) < cfg.REQUIRED_FIELDS.length := by
      exact_mod_cast List.length_pos.mpr hlnil
    have hwpos : 0 < p.2.weight := by
      rw [hwq]
      exact weightFallback_pos _ _ _ (by positivity)
        (fun r hr q hq => derivedWeights_nonneg cfg kv hk r hr q hq)
    have hsb := varScoreOf_bounds exp sq hexp cfg p.1 win crop kv hpairs
    exact ⟨hwpos, by rw [hscq]; exact hsb.1, by rw [hscq]; exact hsb.2, hwsq⟩
  obtain ⟨hw1, hw2⟩ := weighted_sum_bounds _ hne hall
  have hwpos : 0 < ((computeScore exp sq cfg win crop kv
      (derivedWeights cfg kv)).details.map (fun q => q.2.weight)).sum :=
    lt_trans hw1 hw2
  rw [hs]
  exact ⟨div_pos hw1 hwpos, (div_lt_one hwpos).mpr hw2⟩

/-- C1 (amended): under a positive `exp` interpretation and crops all of
whose k-value entries are nonnegative numbers (or `null`/`NaN`), every
window of every run result has a rounded score in `[0, 1]`; the score is
`round4` of some window's `computeScore` score, which equals the sum of
the per-variable weighted scores divided by the sum of the weights
actually used (nonempty details, nonzero weight sum) — and, for any
inputs whatsoever, the `computeScore` score is `null` exactly when no
variable produced a score or that weight sum is zero (such windows are
never turned into results, as the decomposition shows).  Without the
k-nonnegativity hypothesis the range claim is false (see the
counterexample): a negative k value yields a negative weight and a
"weighted average" above `1`. -/
theorem C1_score_range (exp sq : ℚ → ℚ) (hexp : ∀ y, 0 < exp y)
    (cfg : Config) (crops : List (String × Crop)) (fc : List Day)
    (hkv : ∀ p ∈ crops, ∀ e ∈ p.2.k_values.getD [], KEntryNonneg e.2) :
    (∀ win cropDf kv wts,
        (computeScore exp sq cfg win cropDf kv wts).score = none ↔
          (computeScore exp sq cfg win cropDf kv wts).details = [] ∨
            ((computeScore exp sq cfg win cropDf kv wts).details.map
              (fun q => q.2.weight)).sum = 0) ∧
      ∀ r ∈ (runCropMatching exp sq cfg crops fc).results, ∀ w ∈ r.windows,
        0 ≤ w.score ∧ w.score ≤ 1 ∧
        ∃ p ∈ crops, ∃ i s,
          (windowScore exp sq cfg fc p.2 i).score = some s ∧
          w.score = round4 s ∧
          w.variable_details = (windowScore exp sq cfg fc p.2 i).details ∧
          s = ((windowScore exp sq cfg fc p.2 i).details.map
                (fun q => q.2.weighted_score)).sum /
              ((windowScore exp sq cfg fc p.2 i).details.map
                (fun q => q.2.weight)).sum ∧
          (windowScore exp sq cfg fc p.2 i).details ≠ [] ∧
          ((windowScore exp sq cfg fc p.2 i).details.map
            (fun q => q.2.weight)).sum ≠ 0 := by
  constructor
  · intro win cropDf kv wts
    exact computeScore_score_none_iff exp sq cfg win cropDf kv wts
  · intro r hr w hw
    rw [runCropMatching_eq] at hr
    dsimp only at hr
    rw [List.mem_filterMap] at hr
    obtain ⟨p, hp, hres⟩ := hr
    obtain ⟨-, ws, st, hout, hws⟩ := resultFromOutcome_name _ _ _ _ hres
    unfold outcomeOf at hout
    rw [hws] at hw
    obtain ⟨i, hi, hpw⟩ := mem_success_windows exp sq cfg (sortByDate fc)
      p.2 ws st w hout hw
    obtain ⟨-, s, hcs, hweq⟩ := processWindow_scored_inv exp sq cfg
      (sortByDate fc) (sortByDate p.2.daily_weather) (p.2.k_values.getD [])
      (derivedWeights cfg (p.2.k_values.getD [])) i w hpw
    have hbounds := computeScore_score_bounds exp sq hexp cfg
      (((sortByDate fc).drop i).take (sortByDate p.2.daily_weather).length)
      (sortByDate p.2.daily_weather) (p.2.k_values.getD [])
      (hkv p hp) s hcs
    obtain ⟨hform, hdne, hwsne⟩ := computeScore_score_some exp sq cfg
      (((sortByDate fc).drop i).take (sortByDate p.2.daily_weather).length)
      (sortByDate p.2.daily_weather) (p.2.k_values.getD [])
      (derivedWeights cfg (p.2.k_values.getD [])) s hcs
    have hr4 := round4_bounds s (le_of_lt hbounds.1) (le_of_lt hbounds.2)
    subst hweq
    exact ⟨hr4.1, hr4.2, p, hp, i, s, hcs, rfl, rfl, hform, hdne, hwsne⟩

set_option maxHeartbeats 4000000 in
/-- C1 counterexample: with a positive `exp` interpretation
(`expCex x = if x = 0 then 1 else 8`, matching `Math.exp` at the two
points used) and a crop whose `k_values` are `{a: 3, b: -2}`, the run
reports a window score of `6389/5000 = 1.2778 > 1`: the negative k
gives weight `-2`, the weight sum is `1`, and the weighted sum is
`23/18`. -/
theorem C1_counterexample :
    (runCropMatching expCex sqrtCex cfgAB cropsCex1 fcCex1).results =
      [⟨"c", 1, [⟨0, 6389/5000,
        [("a", ⟨3, 3, 1, 0, 0, 0, 1/2, 3/2⟩),
         ("b", ⟨-2, -2, 1, 0, 0, 100000/100001, 1/9, -2/9⟩)]⟩]⟩] ∧
    ¬ ((((runCropMatching expCex sqrtCex cfgAB cropsCex1 fcCex1).results.headD
      default).windows.headD default).score ≤ 1) := by
  have hsort1 : sortByDate [(⟨0, [("a", .vnum 1), ("b", .vnum 2)]⟩ : Day)] =
      [⟨0, [("a", .vnum 1), ("b", .vnum 2)]⟩] := by with_unfolding_all decide
  have hsort2 : sortByDate [(⟨0, [("a", .vnum 1), ("b", .vnum 1)]⟩ : Day)] =
      [⟨0, [("a", .vnum 1), ("b", .vnum 1)]⟩] := by with_unfolding_all decide
  have hslice : (([(⟨0, [("a", .vnum 1), ("b", .vnum 2)]⟩ : Day)]).drop 0).take 1 =
      [⟨0, [("a", .vnum 1), ("b", .vnum 2)]⟩] := by with_unfolding_all decide
  have hrange : List.range 1 = [0] := by decide
  constructor
  · simp [runCropMatching, stepCrop, processCrop, cropWindowOutcomes,
      processWindow, windowStarts, computeScore, scoreOutcomes, scoreVariable,
      hasVarEveryDay, extractVals, validPairs, kFallback, weightFallback,
      logisticScore, safeExp, clamp709, derivedWeights, validKValues, kSumOf,
      countValidValues, defaultVariableWeights, statsOfOutcomes,
      sortByScoreDesc, insertByScoreDesc, initSummary, cfgAB, cropsCex1,
      fcCex1, expCex, sqrtCex, hsort1, hsort2, hslice, hrange,
      filterMap_cons_eval, min_def, max_def]
    norm_num [round4, filterMap_cons_eval, processWindow, computeScore,
      scoreOutcomes, scoreVariable, hasVarEveryDay, extractVals, validPairs,
      kFallback, weightFallback, logisticScore, safeExp, clamp709,
      countValidValues, statsOfOutcomes, sortByScoreDesc, insertByScoreDesc,
      hsort1, hsort2, hslice, hrange, min_def, max_def]
  · simp [runCropMatching, stepCrop, processCrop, cropWindowOutcomes,
      processWindow, windowStarts, computeScore, scoreOutcomes, scoreVariable,
      hasVarEveryDay, extractVals, validPairs, kFallback, weightFallback,
      logisticScore, safeExp, clamp709, derivedWeights, validKValues, kSumOf,
      countValidValues, defaultVariableWeights, statsOfOutcomes,
      sortByScoreDesc, insertByScoreDesc, initSummary, cfgAB, cropsCex1,
      fcCex1, expCex, sqrtCex, hsort1, hsort2, hslice, hrange,
      filterMap_cons_eval, min_def, max_def]
    norm_num [round4, filterMap_cons_eval, processWindow, computeScore,
      scoreOutcomes, scoreVariable, hasVarEveryDay, extractVals, validPairs,
      kFallback, weightFallback, logisticScore, safeExp, clamp709,
      countValidValues, statsOfOutcomes, sortByScoreDesc, insertByScoreDesc,
      hsort1, hsort2, hslice, hrange, min_def, max_def]

set_option maxHeartbeats 4000000 in
/-- Witness for C1 at the concrete interpretations `expOne` and
`sqrtZero` and a one-crop, one-window run: the reported score `1/2` is
in `[0, 1]` by the theorem applied at these inputs. -/
theorem C1_witness :
    0 ≤ (((runCropMatching expOne sqrtZero cfgA cropsW fcW).results.headD
        default).windows.headD default).score ∧
      (((runCropMatching expOne sqrtZero cfgA cropsW fcW).results.headD
        default).windows.headD default).score ≤ 1 := by
  have hsort1 : sortByDate [(⟨0, [("a", .vnum 5)]⟩ : Day)] =
      [⟨0, [("a", .vnum 5)]⟩] := by with_unfolding_all decide
  have hslice : (([(⟨0, [("a", .vnum 5)]⟩ : Day)]).drop 0).take 1 =
      [⟨0, [("a", .vnum 5)]⟩] := by with_unfolding_all decide
  have hrange : List.range 1 = [0] := by decide
  have hrun : (runCropMatching expOne sqrtZero cfgA cropsW fcW).results =
      [⟨"c", 1, [⟨0, 1/2, [("a", ⟨2, 1, 1, 0, 0, 0, 1/2, 1/2⟩)]⟩]⟩] := by
    simp [runCropMatching, stepCrop, processCrop, cropWindowOutcomes,
      processWindow, windowStarts, computeScore, scoreOutcomes, scoreVariable,
      hasVarEveryDay, extractVals, validPairs, kFallback, weightFallback,
      logisticScore, safeExp, clamp709, derivedWeights, validKValues, kSumOf,
      countValidValues, defaultVariableWeights, statsOfOutcomes,
      sortByScoreDesc, insertByScoreDesc, initSummary, cfgA, cropsW, cropW,
      fcW, expOne, sqrtZero, hsort1, hslice, hrange,
      filterMap_cons_eval, min_def, max_def]
    norm_num [round4, filterMap_cons_eval, processWindow, computeScore,
      scoreOutcomes, scoreVariable, hasVarEveryDay, extractVals, validPairs,
      kFallback, weightFallback, logisticScore, safeExp, clamp709,
      countValidValues, statsOfOutcomes, sortByScoreDesc, insertByScoreDesc,
      hsort1, hslice, hrange, min_def, max_def]
  have hkv : ∀ p ∈ cropsW, ∀ e ∈ p.2.k_values.getD [], KEntryNonneg e.2 := by
    intro p hp e he q hq
    rw [cropsW, List.mem_singleton] at hp
    subst hp
    rw [cropW] at he
    simp only [Option.getD_some, List.mem_singleton] at he
    subst he
    simp only at hq
    obtain rfl := (JVal.vnum.injEq _ _).mp hq
    norm_num
  have h := (C1_score_range expOne sqrtZero (fun y => one_pos) cfgA cropsW
    fcW hkv).2 ⟨"c", 1, [⟨0, 1/2, [("a", ⟨2, 1, 1, 0, 0, 0, 1/2, 1/2⟩)]⟩]⟩
    (by rw [hrun]; exact List.mem_singleton.mpr rfl)
    ⟨0, 1/2, [("a", ⟨2, 1, 1, 0, 0, 0, 1/2, 1/2⟩)]⟩
    (List.mem_singleton.mpr rfl)
  rw [hrun]
  exact ⟨h.1, h.2.1⟩

end CropMatch
